import Mathlib

/-!
Verification development for the course-generation pipeline
(`course.service`, `prompt.service`, `syllabus.service`, `content.service`,
`course.model`, and the syllabus JSON schema).

The TypeScript source is shallowly embedded: the generation service is an
oracle (a function from the arguments the pipeline passes it to the result
structure the service returns), persistence is explicit state passing (each
workflow returns the finally persisted `CourseState`), and JavaScript arrays
that can acquire holes through out-of-bounds index assignment are modelled as
`List (Option α)` with `none` for a hole; reads of holes and of out-of-range
indices both yield `none`, matching JavaScript's `undefined`.
-/

/-! ## JavaScript value helpers -/

/-- Read of a JS array index: holes and out-of-range reads are `undefined`. -/
def jsGet {α : Type} (xs : List (Option α)) (i : Nat) : Option α :=
  (xs.get? i).join

/-- Write of a JS array index: in range it replaces the entry; past the end it
pads the array with holes, exactly as `arr[i] = v` does in JavaScript. -/
def jsSet {α : Type} (xs : List (Option α)) (i : Nat) (v : α) : List (Option α) :=
  if i < xs.length then xs.set i (some v)
  else xs ++ List.replicate (i - xs.length) none ++ [some v]

/-- JS truthiness of an optional string: `undefined` and `""` are falsy. -/
def strTruthy : Option String → Bool
  | none => false
  | some s => s != ""

/-- JS truthiness of an optional boolean: `undefined` is falsy. -/
def boolTruthy : Option Bool → Bool
  | none => false
  | some b => b

/-- Template-literal rendering of a possibly-undefined string. -/
def jsShow : Option String → String
  | none => "undefined"
  | some s => s

/-- First index satisfying a predicate (JS `findIndex` before the `-1` step). -/
def firstIdx? {α : Type} (p : α → Bool) : List α → Option Nat
  | [] => none
  | a :: as => if p a then some 0 else (firstIdx? p as).map (· + 1)

/-! ## Data model (`course.model.ts`, syllabus schema types) -/

structure Lesson where
  title : String
  content_outline : List String
deriving DecidableEq

structure PlanModule where
  title : String
  overview : Option String
  estimated_duration_minutes : Option Int
  lessons : List Lesson
deriving DecidableEq

structure Syllabus where
  topic : String
  title : String
  keywords : String
  description : String
  total_duration_minutes : Int
  modules : List PlanModule
deriving DecidableEq

/-- A realized module: a plan module plus its generated content and summary. -/
structure RealizedModule where
  title : String
  overview : Option String
  estimated_duration_minutes : Option Int
  lessons : List Lesson
  generatedContent : Option String
  summary : Option String
deriving DecidableEq

inductive CourseStatus where
  | draft
  | filtering_prompt
  | generating_syllabus
  | generating_content
  | ready
  | error
deriving DecidableEq

inductive AIProvider where
  | deepseek
  | openai
deriving DecidableEq

inductive ContentLength where
  | intro
  | short
  | long
  | textbook
deriving DecidableEq

inductive Tone where
  | friendly
  | neutral
  | professional
deriving DecidableEq

inductive Technicality where
  | basic
  | intermediate
  | technical
deriving DecidableEq

/-- Persisted course state (identity and timestamps omitted). -/
structure CourseState where
  owner : String
  status : CourseStatus
  provider : AIProvider
  contentLength : ContentLength
  tone : Tone
  technicality : Technicality
  language : String
  additionalContext : Option String
  originalPrompt : String
  improvedPrompt : Option String
  level : String
  syllabus : Option Syllabus
  modules : List (Option RealizedModule)
  iterationSummaries : List (Option String)
  errorMessage : Option String
deriving DecidableEq

/-! ## Generation-service oracles -/

/-- Result of `generateModuleContent` (`content.service.ts`). -/
structure ModuleGenerationResult where
  success : Bool
  content : Option String
  summary : Option String
  error : Option String
deriving DecidableEq

/-- The module-content generation service, abstracted over the arguments that
vary per call: the plan module, its index, the syllabus and the prior-summary
slice. Style options (tone, technicality, language, additional context,
token budget) do not affect control flow and are not modelled. -/
def Gen : Type := PlanModule → Nat → Syllabus → List (Option String) → ModuleGenerationResult

/-- Result of `filterAndImprovePrompt` (`prompt.service.ts`). The source
declares `isValid: boolean` but can in fact store `undefined` in it when the
parsed JSON lacks the field, hence `Option Bool`. -/
structure PromptFilterResult where
  isValid : Option Bool
  improvedPrompt : Option String
  rejectionReason : Option String
deriving DecidableEq

/-- The JSON object shape `filterAndImprovePrompt` reads out of the model
response; each field may be absent. -/
structure ParsedFilter where
  isValid : Option Bool
  improvedPrompt : Option String
  rejectionReason : Option String
deriving DecidableEq

/-- Result of `generateSyllabus` (`syllabus.service.ts`) as consumed by the
orchestrator, with the validated syllabus already decoded. -/
structure SyllabusGenerationResult where
  success : Bool
  syllabus : Option Syllabus
  error : Option String
deriving DecidableEq

/-! ## Prompt Qualifier (`prompt.service.ts`, `filterAndImprovePrompt`)

The single completion call is abstracted into its observable pieces: the
response content (`none` models a null/missing content field) and a JSON
parse oracle (`none` models a `JSON.parse` exception). -/

def filterAndImprovePrompt (content : Option String)
    (parse : String → Option ParsedFilter) : PromptFilterResult :=
  match content with
  | none => { isValid := some false, improvedPrompt := none,
              rejectionReason := some "No response from AI" }
  | some s =>
    if s = "" then
      { isValid := some false, improvedPrompt := none,
        rejectionReason := some "No response from AI" }
    else
      match parse s with
      | some r => { isValid := r.isValid, improvedPrompt := r.improvedPrompt,
                    rejectionReason := r.rejectionReason }
      | none => { isValid := some false, improvedPrompt := none,
                  rejectionReason := some "Failed to parse AI response" }

/-! ## Syllabus JSON schema (`syllabusSchema`) and `generateSyllabus`

The ajv validation in `syllabus.service` is embedded over a small JSON AST.
The schema is the repository's `syllabusSchema` object: required fields and
typed properties only, with no minimum-length constraint on any array. -/

inductive Json where
  | jnull
  | jbool (b : Bool)
  | jnum (n : Int)
  | jstr (s : String)
  | jarr (xs : List Json)
  | jobj (fields : List (String × Json))

/-- Field lookup in a parsed JSON object. -/
def getField (fields : List (String × Json)) (k : String) : Option Json :=
  (fields.find? (fun p => p.1 == k)).map (fun p => p.2)

def isStr : Json → Bool
  | Json.jstr _ => true
  | _ => false

def isNum : Json → Bool
  | Json.jnum _ => true
  | _ => false

/-- An ajv `properties` entry constrains a field only when it is present. -/
def fieldOk (fields : List (String × Json)) (k : String) (ty : Json → Bool) : Bool :=
  match getField fields k with
  | none => true
  | some v => ty v

/-- A field listed in `required` must be present. -/
def fieldReq (fields : List (String × Json)) (k : String) : Bool :=
  (getField fields k).isSome

/-- Lesson schema: object, required `title` and `content_outline`;
`content_outline` is an array of strings. -/
def validLessonJson : Json → Bool
  | Json.jobj fields =>
    fieldReq fields "title" && fieldReq fields "content_outline" &&
    fieldOk fields "title" isStr &&
    fieldOk fields "content_outline"
      (fun v => match v with
        | Json.jarr xs => xs.all isStr
        | _ => false)
  | _ => false

/-- Module schema: object, required `title` and `lessons`; `lessons` is an
array whose items validate as lessons. The schema has no `minItems`, so an
empty `lessons` array is accepted. -/
def validModuleJson : Json → Bool
  | Json.jobj fields =>
    fieldReq fields "title" && fieldReq fields "lessons" &&
    fieldOk fields "title" isStr &&
    fieldOk fields "overview" isStr &&
    fieldOk fields "estimated_duration_minutes" isNum &&
    fieldOk fields "lessons"
      (fun v => match v with
        | Json.jarr xs => xs.all validLessonJson
        | _ => false)
  | _ => false

/-- Top-level syllabus schema. -/
def validSyllabusJson : Json → Bool
  | Json.jobj fields =>
    fieldReq fields "topic" && fieldReq fields "title" &&
    fieldReq fields "keywords" && fieldReq fields "description" &&
    fieldReq fields "total_duration_minutes" && fieldReq fields "modules" &&
    fieldOk fields "topic" isStr &&
    fieldOk fields "title" isStr &&
    fieldOk fields "keywords" isStr &&
    fieldOk fields "description" isStr &&
    fieldOk fields "total_duration_minutes" isNum &&
    fieldOk fields "modules"
      (fun v => match v with
        | Json.jarr xs => xs.all validModuleJson
        | _ => false)
  | _ => false

/-- Schema shape of a module's lessons field: present, an array, each item a
valid lesson; no minimum length is imposed. -/
def lessonsFieldOk (o : Option Json) : Bool :=
  match o with
  | some (Json.jarr xs) => xs.all validLessonJson
  | _ => false

/-- Outcome of `generateSyllabus` at the JSON level, before the unchecked
cast to the `Syllabus` type. -/
structure SyllabusJsonResult where
  success : Bool
  syllabus : Option Json
  error : Option String

/-- Shallow embedding of `generateSyllabus`: missing content, a JSON parse
failure, and an ajv validation failure each yield a failure result; a
validated document is returned as the syllabus unchanged. The serialized
ajv error details appended to the failure messages are abstracted away. -/
def generateSyllabusJson (content : Option String)
    (parse : String → Option Json) : SyllabusJsonResult :=
  match content with
  | none => { success := false, syllabus := none, error := some "No response from AI" }
  | some s =>
    if s = "" then
      { success := false, syllabus := none, error := some "No response from AI" }
    else
      match parse s with
      | none => { success := false, syllabus := none,
                  error := some "Failed to parse syllabus" }
      | some j =>
        if validSyllabusJson j then
          { success := true, syllabus := some j, error := none }
        else
          { success := false, syllabus := none,
            error := some "Schema validation failed" }

/-! ## Course creation (`course.service.ts`, `createCourse`) -/

structure CreateCourseInput where
  ownerId : String
  topic : String
  level : String
  provider : Option AIProvider
  contentLength : ContentLength
  tone : Tone
  technicality : Technicality
  language : String
  additionalContext : Option String

/-- The course document `createCourse` builds, saves and immediately returns;
the background pipeline is detached and is modelled separately as
`processCourseAsync` applied to this persisted state. -/
def createCourse (input : CreateCourseInput) : CourseState :=
  { owner := input.ownerId
    status := CourseStatus.filtering_prompt
    provider := input.provider.getD AIProvider.deepseek
    contentLength := input.contentLength
    tone := input.tone
    technicality := input.technicality
    language := input.language
    additionalContext := input.additionalContext
    originalPrompt := input.topic
    improvedPrompt := none
    level := input.level
    syllabus := none
    modules := []
    iterationSummaries := []
    errorMessage := none }

/-! ## Forward pass (`course.service.ts`, `processCourseAsync`) -/

/-- Failure entry pushed for module index `i` (0-based in the loop, displayed
1-based): `Module i+1 (title): reason`. -/
def failMsg (i : Nat) (m : PlanModule) (e : Option String) : String :=
  "Module " ++ toString (i + 1) ++ " (" ++ m.title ++ "): " ++ jsShow e

/-- Spread of a plan module plus generated content and summary. -/
def realize (m : PlanModule) (r : ModuleGenerationResult) : RealizedModule :=
  { title := m.title
    overview := m.overview
    estimated_duration_minutes := m.estimated_duration_minutes
    lessons := m.lessons
    generatedContent := r.content
    summary := r.summary }

/-- Mutable state of the per-module generation loop: the course's `modules`
and `iterationSummaries` arrays, the local `summaries` accumulator, and the
local `failedModules` list. -/
structure LoopAcc where
  modules : List (Option RealizedModule)
  iterSums : List (Option String)
  summaries : List String
  failed : List String
deriving DecidableEq

/-- One iteration of the forward generation loop. On success the realized
module is pushed and, when the summary is truthy, both summary accumulators
are pushed; on failure the error entry is pushed. -/
def stepModule (gen : Gen) (syl : Syllabus) (i : Nat) (m : PlanModule)
    (acc : LoopAcc) : LoopAcc :=
  let r := gen m i syl (acc.summaries.map some)
  if r.success then
    let acc1 : LoopAcc := { acc with modules := acc.modules ++ [some (realize m r)] }
    match r.summary with
    | some s =>
      if s ≠ "" then
        { acc1 with summaries := acc1.summaries ++ [s],
                    iterSums := acc1.iterSums ++ [some s] }
      else acc1
    | none => acc1
  else
    { acc with failed := acc.failed ++ [failMsg i m r.error] }

/-- The forward generation loop: each module is processed in order and a
failure never stops the iteration. -/
def runModules (gen : Gen) (syl : Syllabus) : Nat → List PlanModule → LoopAcc → LoopAcc
  | _, [], acc => acc
  | i, m :: rest, acc =>
    runModules gen syl (i + 1) rest (stepModule gen syl i m acc)

/-- Terminal mapping after the forward loop: no realized modules means
`error` with every reason joined; otherwise `ready`, with an error message
listing the failures when some occurred. -/
def finishForward (c : CourseState) (acc : LoopAcc) : CourseState :=
  let c := { c with modules := acc.modules, iterationSummaries := acc.iterSums }
  if c.modules.length = 0 then
    { c with status := CourseStatus.error
             errorMessage := some ("All modules failed to generate. Errors: " ++
               String.intercalate "; " acc.failed) }
  else if acc.failed.length > 0 then
    { c with status := CourseStatus.ready
             errorMessage := some ("Completed with " ++ toString acc.failed.length ++
               " failed modules: " ++ String.intercalate "; " acc.failed) }
  else
    { c with status := CourseStatus.ready }

/-- The detached pipeline driven by `createCourse`: prompt filter, syllabus
generation, per-module loop, terminal mapping. The filter and syllabus
oracles are the results of the corresponding service calls. The branch where
`success` is true but the syllabus is absent models the source's non-null
assertion blowing up and being caught by the top-level handler after the
course was already saved with an undefined syllabus. -/
def processCourseAsync (fr : PromptFilterResult) (sr : SyllabusGenerationResult)
    (gen : Gen) (course : CourseState) : CourseState :=
  if ¬ boolTruthy fr.isValid then
    { course with status := CourseStatus.error, errorMessage := fr.rejectionReason }
  else
    let course := { course with improvedPrompt := fr.improvedPrompt,
                                status := CourseStatus.generating_syllabus }
    if ¬ sr.success then
      { course with status := CourseStatus.error, errorMessage := sr.error }
    else
      match sr.syllabus with
      | none =>
        { course with syllabus := none, status := CourseStatus.error,
                      errorMessage := some "Cannot read properties of undefined (reading 'modules')" }
      | some syl =>
        let course := { course with syllabus := some syl,
                                    status := CourseStatus.generating_content }
        let acc := runModules gen syl 0 syl.modules
          { modules := course.modules, iterSums := course.iterationSummaries,
            summaries := [], failed := [] }
        finishForward course acc

/-! ## Single-module regeneration (`course.service.ts`, `regenerateSection`)

Returned value: the persisted course state after the call, paired with the
value returned to the caller (`none` models returning `null`). -/

/-- The transient syllabus variant with the regeneration context appended to
the description. -/
def ctxSyllabus (syl : Syllabus) (userContext : String) : Syllabus :=
  { syl with description := syl.description ++
      "\n\nAdditional context for regeneration: " ++ userContext }

def regenerateSection (gen : Gen) (course : CourseState) (moduleIndex : Nat)
    (userContext : String) : CourseState × Option CourseState :=
  match course.syllabus with
  | none => (course, none)
  | some syl =>
    match syl.modules.get? moduleIndex with
    | none => (course, none)
    | some m =>
      let previousSummaries := course.iterationSummaries.take moduleIndex
      let r := gen m moduleIndex (ctxSyllabus syl userContext) previousSummaries
      if r.success then
        let course1 := { course with modules := jsSet course.modules moduleIndex (realize m r) }
        let course2 :=
          match r.summary with
          | some s =>
            if s ≠ "" then
              { course1 with iterationSummaries := jsSet course1.iterationSummaries moduleIndex s }
            else course1
          | none => course1
        (course2, some course2)
      else
        (course, some course)

/-! ## Resume (`course.service.ts`, `resumeCourse` and `resumeCourseAsync`) -/

/-- Titles of the realized modules (holes contribute nothing, as the JS
`map`/`Set` pair skips holes' titles). -/
def realizedTitles (xs : List (Option RealizedModule)) : List String :=
  xs.filterMap (fun o => o.map (fun m => m.title))

/-- The missing-module scan: plan modules whose title is not among the
realized titles, paired with their plan index, in ascending order. -/
def missingAux (titles : List String) : Nat → List PlanModule → List (Nat × PlanModule)
  | _, [] => []
  | i, m :: rest =>
    if titles.contains m.title then missingAux titles (i + 1) rest
    else (i, m) :: missingAux titles (i + 1) rest

def missingModulesOf (syl : Syllabus) (mods : List (Option RealizedModule)) :
    List (Nat × PlanModule) :=
  missingAux (realizedTitles mods) 0 syl.modules

/-- Mutable state of the resume loop. -/
structure ResumeAcc where
  modules : List (Option RealizedModule)
  iterSums : List (Option String)
  failed : List String
deriving DecidableEq

/-- Matching step of the resume loop: JS `findIndex` over the realized
modules by title. The JS original would throw on an array hole; the model
treats a hole as a non-match, and every resume theorem below assumes
hole-free arrays, where the two agree. -/
def findRealizedIdx (mods : List (Option RealizedModule)) (t : String) : Option Nat :=
  firstIdx? (fun o => match o with
    | some mm => mm.title == t
    | none => false) mods

/-- One resume iteration followed by the rest: the generation call uses the
current prior-summary slice; on success the realized module (rebuilt from the
syllabus module at the plan index) replaces the entry with the same title or
is pushed, and the summary is written at the plan index (padding with holes);
on failure the error entry is recorded and the loop continues. The branch
where the plan index is out of range models the source dereferencing an
undefined syllabus module inside the per-module try/catch. -/
def stepResume (gen : Gen) (syl : Syllabus) (i : Nat) (m : PlanModule)
    (acc : ResumeAcc) : ResumeAcc :=
  let prev := acc.iterSums.take i
  let r := gen m i syl prev
  if r.success then
    match syl.modules.get? i with
    | none =>
      { acc with failed := acc.failed ++
          [failMsg i m (some "Cannot read properties of undefined (reading 'title')")] }
    | some sm =>
      let newM := realize sm r
      let mods :=
        match findRealizedIdx acc.modules m.title with
        | some j => acc.modules.set j (some newM)
        | none => acc.modules ++ [some newM]
      let sums :=
        match r.summary with
        | some s => if s ≠ "" then jsSet acc.iterSums i s else acc.iterSums
        | none => acc.iterSums
      { modules := mods, iterSums := sums, failed := acc.failed }
  else
    { acc with failed := acc.failed ++ [failMsg i m r.error] }

def resumeLoop (gen : Gen) (syl : Syllabus) :
    List (Nat × PlanModule) → ResumeAcc → ResumeAcc
  | [], acc => acc
  | (i, m) :: rest, acc =>
    resumeLoop gen syl rest (stepResume gen syl i m acc)

/-- Plan index of a title as the JS `findIndex` computes it: `-1` when the
title is not in the plan. -/
def planKey (syl : Syllabus) (t : String) : Int :=
  match firstIdx? (fun pm => pm.title == t) syl.modules with
  | some j => (j : Int)
  | none => -1

/-- Sort key of the final re-sort: the plan index of the realized title. A
hole is keyed past the end, matching the JS sort's treatment of holes (never
compared, moved to the end). -/
def sortKey (syl : Syllabus) (o : Option RealizedModule) : Int :=
  match o with
  | some m => planKey syl m.title
  | none => (syl.modules.length : Int) + 1

/-- Stable insertion of an element into a sorted list: placed before the
first element it compares less-or-equal to. -/
def insertByLe {α : Type} (le : α → α → Bool) (a : α) : List α → List α
  | [] => [a]
  | b :: bs => if le a b then a :: b :: bs else b :: insertByLe le a bs

/-- Stable comparison sort. JS `Array.prototype.sort` is required to be a
stable comparison sort; on the consistent comparators used here any stable
sort computes the same result. -/
def sortByLe {α : Type} (le : α → α → Bool) : List α → List α
  | [] => []
  | a :: as => insertByLe le a (sortByLe le as)

/-- The final `modules.sort` by plan-index lookup. -/
def sortByPlan (syl : Syllabus) (mods : List (Option RealizedModule)) :
    List (Option RealizedModule) :=
  sortByLe (fun a b => decide (sortKey syl a ≤ sortKey syl b)) mods

/-- Terminal mapping after the resume loop: all plan modules realized means
`ready` (error message listing failures when some occurred, cleared
otherwise); otherwise `error` when failures occurred; otherwise the fields
are left as they were. -/
def finishResume (c : CourseState) (syl : Syllabus) (acc : ResumeAcc) : CourseState :=
  let sorted := sortByPlan syl acc.modules
  let c := { c with modules := sorted, iterationSummaries := acc.iterSums }
  if c.modules.length = syl.modules.length then
    { c with status := CourseStatus.ready
             errorMessage :=
               if acc.failed.length > 0 then
                 some ("Completed with some issues: " ++ String.intercalate "; " acc.failed)
               else none }
  else if acc.failed.length > 0 then
    { c with status := CourseStatus.error
             errorMessage := some ("Resume failed for some modules: " ++
               String.intercalate "; " acc.failed) }
  else c

/-- The detached resume worker, applied to the course state persisted by
`resumeCourse` and the missing-module list it computed. -/
def resumeCourseAsync (gen : Gen) (missing : List (Nat × PlanModule))
    (course : CourseState) : CourseState :=
  match course.syllabus with
  | none => course
  | some syl =>
    let acc := resumeLoop gen syl missing
      { modules := course.modules, iterSums := course.iterationSummaries,
        failed := [] }
    finishResume course syl acc

/-- Entry point of Resume. Returned value: the persisted course state after
the call (including the detached worker's writes), paired with the value
returned synchronously to the caller. With no missing modules the course is
marked ready and the error cleared without touching modules or summaries. -/
def resumeCourse (gen : Gen) (course : CourseState) : CourseState × Option CourseState :=
  match course.syllabus with
  | none => (course, none)
  | some syl =>
    let missing := missingModulesOf syl course.modules
    if missing.isEmpty then
      let c := { course with status := CourseStatus.ready, errorMessage := none }
      (c, some c)
    else
      let c := { course with status := CourseStatus.generating_content, errorMessage := none }
      (resumeCourseAsync gen missing c, some c)

/-! ## Concrete fixtures used by witnesses and counterexamples -/

/-- Index alignment of the realized modules with the plan: same length and
equal titles position by position. -/
def titlesAligned (mods : List (Option RealizedModule)) (syl : Syllabus) : Prop :=
  mods.map (Option.map RealizedModule.title) =
    syl.modules.map (fun m => some m.title)

def exLesson : Lesson :=
  { title := "L", content_outline := ["o"] }

def exPlan (t : String) : PlanModule :=
  { title := t, overview := some "ov", estimated_duration_minutes := some 30,
    lessons := [exLesson] }

def exSyl3 : Syllabus :=
  { topic := "t", title := "T", keywords := "k", description := "d",
    total_duration_minutes := 90, modules := [exPlan "A", exPlan "B", exPlan "C"] }

/-- A plan with two modules sharing one title. -/
def exSylDup : Syllabus :=
  { topic := "t", title := "T", keywords := "k", description := "d",
    total_duration_minutes := 60, modules := [exPlan "A", exPlan "A"] }

def exSyl1 : Syllabus :=
  { topic := "t", title := "T", keywords := "k", description := "d",
    total_duration_minutes := 30, modules := [exPlan "A"] }

def exInput : CreateCourseInput :=
  { ownerId := "owner", topic := "Topic", level := "beginner", provider := none,
    contentLength := ContentLength.short, tone := Tone.neutral,
    technicality := Technicality.intermediate, language := "English",
    additionalContext := none }

def exFilterOk : PromptFilterResult :=
  { isValid := some true, improvedPrompt := some "improved", rejectionReason := none }

def exSylRes (s : Syllabus) : SyllabusGenerationResult :=
  { success := true, syllabus := some s, error := none }

/-- Generation oracle that always succeeds. -/
def genOk : Gen := fun m i _ _ =>
  { success := true, content := some ("body " ++ m.title),
    summary := some ("S" ++ toString i), error := none }

/-- Generation oracle failing exactly on the listed module titles. -/
def genFailTitles (bad : List String) : Gen := fun m i _ _ =>
  if bad.contains m.title then
    { success := false, content := none, summary := none, error := some "boom" }
  else
    { success := true, content := some ("body " ++ m.title),
      summary := some ("S" ++ toString i), error := none }

/-- Generation oracle failing exactly on the listed module indices. -/
def genFailIdx (bad : List Nat) : Gen := fun _ i _ _ =>
  if bad.contains i then
    { success := false, content := none, summary := none, error := some "boom" }
  else
    { success := true, content := some ("body" ++ toString i),
      summary := some ("S" ++ toString i), error := none }

/-- A realized module as stored after a successful generation. -/
def exRealized (t : String) : RealizedModule :=
  { title := t, overview := some "ov", estimated_duration_minutes := some 30,
    lessons := [exLesson], generatedContent := some "g", summary := some "s" }

/-- A course holding plan `exSyl3` with only module A realized. -/
def exCourseA : CourseState :=
  { owner := "owner", status := CourseStatus.ready, provider := AIProvider.deepseek,
    contentLength := ContentLength.short, tone := Tone.neutral,
    technicality := Technicality.intermediate, language := "English",
    additionalContext := none, originalPrompt := "Topic",
    improvedPrompt := some "improved", level := "beginner",
    syllabus := some exSyl3, modules := [some (exRealized "A")],
    iterationSummaries := [some "S0"], errorMessage := some "prior failure" }

/-- A fully realized single-module course over `exSyl1`. -/
def exCourseFull1 : CourseState :=
  { exCourseA with
    syllabus := some exSyl1,
    modules := [some (exRealized "A")],
    iterationSummaries := [some "S0"] }

/-- JSON fixture: a schema-conforming syllabus whose single module has an
empty `lessons` array. -/
def exJsonEmptyLessons : Json :=
  Json.jobj
    [ ("topic", Json.jstr "t"), ("title", Json.jstr "T"),
      ("keywords", Json.jstr "k"), ("description", Json.jstr "d"),
      ("total_duration_minutes", Json.jnum 60),
      ("modules", Json.jarr [Json.jobj [("title", Json.jstr "M1"), ("lessons", Json.jarr [])]]) ]

/-! ## Helper lemmas -/

theorem contains_iff_mem {α : Type} [BEq α] [LawfulBEq α] {l : List α} {t : α} :
    l.contains t = true ↔ t ∈ l := by
  induction l with
  | nil => simp
  | cons a as ih => simp [List.contains] at ih ⊢

theorem jsGet_jsSet_ne {α : Type} (xs : List (Option α)) (i j : Nat) (v : α)
    (h : j ≠ i) : jsGet (jsSet xs i v) j = jsGet xs j := by
  unfold jsGet jsSet
  by_cases hi : i < xs.length
  · simp only [if_pos hi]
    rw [List.get?_set_ne _ _ (fun e => h e.symm)]
  · simp only [if_neg hi]
    push_neg at hi
    by_cases hj : j < xs.length
    · rw [List.get?_append (by simp; omega), List.get?_append (by omega)]
    · have hxs : xs.get? j = none := List.get?_len_le (by omega)
      rw [hxs]
      by_cases hji : j < i
      · have : (xs ++ List.replicate (i - xs.length) none ++ [some v]).get? j =
            (List.replicate (i - xs.length) (none : Option α)).get? (j - xs.length) := by
          rw [List.append_assoc, List.get?_append_right (by omega),
            List.get?_append (by simp; omega)]
        rw [this]
        have : (List.replicate (i - xs.length) (none : Option α)).get? (j - xs.length) =
            some none := by
          rw [List.get?_eq_get (by simp; omega)]
          simp [List.get_replicate]
        rw [this]
        rfl
      · have : (xs ++ List.replicate (i - xs.length) none ++ [some v]).get? j = none := by
          apply List.get?_len_le
          simp
          omega
        rw [this]

theorem firstIdx?_eq_none_iff {α : Type} {p : α → Bool} {l : List α} :
    firstIdx? p l = none ↔ ∀ a ∈ l, p a = false := by
  induction l with
  | nil => simp [firstIdx?]
  | cons b bs ih =>
    simp only [firstIdx?]
    by_cases hb : p b = true
    · rw [if_pos hb]
      constructor
      · intro h
        exact (Option.some_ne_none 0 h).elim
      · intro h
        exact absurd (h b (List.mem_cons_self b bs)) (by simp [hb])
    · rw [if_neg hb]
      rw [Option.map_eq_none', ih]
      constructor
      · intro h a ha
        rcases List.mem_cons.mp ha with rfl | ha2
        · exact Bool.eq_false_iff.mpr hb
        · exact h a ha2
      · intro h a ha
        exact h a (List.mem_cons_of_mem _ ha)

theorem firstIdx?_eq_some_get? {α : Type} {p : α → Bool} {l : List α} {j : Nat}
    (h : firstIdx? p l = some j) : ∃ a, l.get? j = some a ∧ p a = true := by
  induction l generalizing j with
  | nil => simp [firstIdx?] at h
  | cons b bs ih =>
    simp only [firstIdx?] at h
    by_cases hb : p b
    · rw [if_pos hb] at h
      obtain rfl : (0 : Nat) = j := Option.some.inj h
      exact ⟨b, rfl, hb⟩
    · rw [if_neg hb] at h
      rcases Option.map_eq_some'.mp h with ⟨k, hk, hkj⟩
      subst hkj
      obtain ⟨a, ha, hpa⟩ := ih hk
      exact ⟨a, by simpa using ha, hpa⟩

theorem firstIdx?_map_nodup {α β : Type} [BEq β] [LawfulBEq β] (f : α → β)
    {l : List α} (hn : (l.map f).Nodup) {i : Nat} {a : α} (hget : l.get? i = some a) :
    firstIdx? (fun x => f x == f a) l = some i := by
  induction l generalizing i with
  | nil => simp at hget
  | cons b bs ih =>
    cases i with
    | zero =>
      simp at hget
      subst hget
      simp [firstIdx?]
    | succ n =>
      simp only [List.get?_cons_succ] at hget
      have hmem : a ∈ bs := List.get?_mem hget
      have hfb : ((fun x => f x == f a) b) = false := by
        simp only [beq_eq_false_iff_ne, ne_eq]
        intro he
        simp only [List.map_cons, List.nodup_cons] at hn
        exact hn.1 (he ▸ List.mem_map_of_mem f hmem)
      have hn2 : (bs.map f).Nodup := by
        simp only [List.map_cons, List.nodup_cons] at hn
        exact hn.2
      simp [firstIdx?, hfb, ih hn2 hget]

theorem realizedTitles_append (xs ys : List (Option RealizedModule)) :
    realizedTitles (xs ++ ys) = realizedTitles xs ++ realizedTitles ys := by
  simp [realizedTitles, List.filterMap_append]

theorem realizedTitles_some (m : RealizedModule) :
    realizedTitles [some m] = [m.title] := rfl

theorem allSome_map_titles {mods : List (Option RealizedModule)}
    (h : ∀ o ∈ mods, o.isSome) :
    mods.map (Option.map RealizedModule.title) = (realizedTitles mods).map some := by
  induction mods with
  | nil => rfl
  | cons o os ih =>
    obtain ⟨m, rfl⟩ := Option.isSome_iff_exists.mp (h o (List.mem_cons_self o os))
    simp only [List.map_cons, Option.map_some']
    rw [ih (fun x hx => h x (List.mem_cons_of_mem _ hx))]
    rfl

theorem map_eq_map_some_titles {mods : List (Option RealizedModule)} {L : List String}
    (h : mods.map (Option.map RealizedModule.title) = L.map some) :
    realizedTitles mods = L := by
  have h1 : realizedTitles mods =
      (mods.map (Option.map RealizedModule.title)).filterMap id := by
    rw [List.filterMap_map]
    rfl
  rw [h1, h, List.filterMap_map]
  simp

theorem missingAux_eq_nil_iff {titles : List String} :
    ∀ {i : Nat} {ms : List PlanModule},
    missingAux titles i ms = [] ↔ ∀ m ∈ ms, titles.contains m.title = true := by
  intro i ms
  induction ms generalizing i with
  | nil => simp [missingAux]
  | cons m rest ih =>
    simp only [missingAux]
    by_cases hc : titles.contains m.title = true
    · rw [if_pos hc]
      constructor
      · intro h x hx
        rcases List.mem_cons.mp hx with rfl | hx2
        · exact hc
        · exact ih.mp h x hx2
      · intro h
        exact ih.mpr (fun x hx => h x (List.mem_cons_of_mem _ hx))
    · rw [if_neg hc]
      constructor
      · intro h
        exact (List.cons_ne_nil _ _ h).elim
      · intro h
        exact absurd (h m (List.mem_cons_self m rest)) hc

theorem missingAux_mem {titles : List String} :
    ∀ {i : Nat} {ms : List PlanModule} {p : Nat × PlanModule},
    p ∈ missingAux titles i ms →
    ∃ j, p.1 = i + j ∧ ms.get? j = some p.2 ∧ titles.contains p.2.title = false := by
  intro i ms p h
  induction ms generalizing i with
  | nil => simp [missingAux] at h
  | cons m rest ih =>
    simp only [missingAux] at h
    by_cases hc : titles.contains m.title = true
    · rw [if_pos hc] at h
      obtain ⟨j, hj, hg, hf⟩ := ih h
      exact ⟨j + 1, by omega, by simpa using hg, hf⟩
    · rw [if_neg hc] at h
      rcases List.mem_cons.mp h with hh | ht
      · subst hh
        exact ⟨0, by omega, rfl, by simpa using hc⟩
      · obtain ⟨j, hj, hg, hf⟩ := ih ht
        exact ⟨j + 1, by omega, by simpa using hg, hf⟩

theorem missingAux_map_title {titles : List String} :
    ∀ {i : Nat} {ms : List PlanModule},
    (missingAux titles i ms).map (fun p => p.2.title) =
      (ms.map PlanModule.title).filter (fun t => !(titles.contains t)) := by
  intro i ms
  induction ms generalizing i with
  | nil => rfl
  | cons m rest ih =>
    simp only [missingAux, List.map_cons, List.filter_cons]
    by_cases hc : titles.contains m.title = true
    · rw [if_pos hc]
      have hnc : (!titles.contains m.title) = false := by rw [hc]; rfl
      rw [hnc]
      simpa using ih
    · rw [if_neg hc]
      have hcf : titles.contains m.title = false := Bool.eq_false_iff.mpr hc
      have hnc : (!titles.contains m.title) = true := by rw [hcf]; rfl
      rw [hnc]
      simpa using ih

theorem perm_insertByLe {α : Type} (le : α → α → Bool) (a : α) (l : List α) :
    (insertByLe le a l).Perm (a :: l) := by
  induction l with
  | nil => simp [insertByLe]
  | cons b bs ih =>
    by_cases h : le a b
    · simp [insertByLe, h]
    · simp only [insertByLe, if_neg h]
      exact (List.Perm.cons b ih).trans (List.Perm.swap a b bs)

theorem perm_sortByLe {α : Type} (le : α → α → Bool) (l : List α) :
    (sortByLe le l).Perm l := by
  induction l with
  | nil => simp [sortByLe]
  | cons a as ih =>
    exact (perm_insertByLe le a (sortByLe le as)).trans (List.Perm.cons a ih)

theorem pairwise_insertByLe {α : Type} (le : α → α → Bool)
    (htot : ∀ a b, le a b || le b a)
    (htr : ∀ a b c, le a b = true → le b c = true → le a c = true)
    (a : α) : ∀ (l : List α), l.Pairwise (fun x y => le x y = true) →
    (insertByLe le a l).Pairwise (fun x y => le x y = true)
  | [], _ => by simp [insertByLe]
  | b :: bs, hl => by
    rcases List.pairwise_cons.mp hl with ⟨hb, hbs⟩
    by_cases h : le a b
    · simp only [insertByLe, if_pos h]
      refine List.pairwise_cons.mpr ⟨?_, hl⟩
      intro x hx
      rcases List.mem_cons.mp hx with rfl | hx
      · exact h
      · exact htr a b x h (hb x hx)
    · have hba : le b a = true := by
        have := htot a b
        simpa [h] using this
      simp only [insertByLe, if_neg h]
      refine List.pairwise_cons.mpr ⟨?_, pairwise_insertByLe le htot htr a bs hbs⟩
      intro x hx
      have hx2 : x ∈ a :: bs := (perm_insertByLe le a bs).mem_iff.mp hx
      rcases List.mem_cons.mp hx2 with rfl | hx3
      · exact hba
      · exact hb x hx3

theorem pairwise_sortByLe {α : Type} (le : α → α → Bool)
    (htot : ∀ a b, le a b || le b a)
    (htr : ∀ a b c, le a b = true → le b c = true → le a c = true) :
    ∀ (l : List α), (sortByLe le l).Pairwise (fun x y => le x y = true)
  | [] => by simp [sortByLe]
  | a :: as => by
    simp only [sortByLe]
    exact pairwise_insertByLe le htot htr a _ (pairwise_sortByLe le htot htr as)

theorem stepModule_failed (gen : Gen) (syl : Syllabus) (i : Nat) (m : PlanModule)
    (acc : LoopAcc) :
    (stepModule gen syl i m acc).failed =
      if (gen m i syl (acc.summaries.map some)).success then acc.failed
      else acc.failed ++ [failMsg i m (gen m i syl (acc.summaries.map some)).error] := by
  by_cases h : (gen m i syl (acc.summaries.map some)).success = true
  · rw [if_pos h]
    cases hs : (gen m i syl (acc.summaries.map some)).summary with
    | none => simp [stepModule, h, hs]
    | some s =>
      by_cases he : s = ""
      · simp [stepModule, h, hs, he]
      · simp [stepModule, h, hs, he]
  · rw [if_neg h]
    simp [stepModule, h]

theorem stepModule_modules (gen : Gen) (syl : Syllabus) (i : Nat) (m : PlanModule)
    (acc : LoopAcc) :
    (stepModule gen syl i m acc).modules =
      if (gen m i syl (acc.summaries.map some)).success then
        acc.modules ++ [some (realize m (gen m i syl (acc.summaries.map some)))]
      else acc.modules := by
  by_cases h : (gen m i syl (acc.summaries.map some)).success = true
  · rw [if_pos h]
    cases hs : (gen m i syl (acc.summaries.map some)).summary with
    | none => simp [stepModule, h, hs]
    | some s =>
      by_cases he : s = ""
      · simp [stepModule, h, hs, he]
      · simp [stepModule, h, hs, he]
  · rw [if_neg h]
    simp [stepModule, h]

theorem runModules_append (gen : Gen) (syl : Syllabus) :
    ∀ (ms₁ ms₂ : List PlanModule) (i : Nat) (acc : LoopAcc),
    runModules gen syl i (ms₁ ++ ms₂) acc =
      runModules gen syl (i + ms₁.length) ms₂ (runModules gen syl i ms₁ acc)
  | [], ms₂, i, acc => by simp [runModules]
  | m :: rest, ms₂, i, acc => by
    show runModules gen syl (i + 1) (rest ++ ms₂) (stepModule gen syl i m acc) =
      runModules gen syl (i + (m :: rest).length) ms₂
        (runModules gen syl (i + 1) rest (stepModule gen syl i m acc))
    rw [runModules_append gen syl rest ms₂ (i + 1) (stepModule gen syl i m acc)]
    congr 1
    simp only [List.length_cons]
    omega

theorem runModules_length (gen : Gen) (syl : Syllabus) :
    ∀ (ms : List PlanModule) (i : Nat) (acc : LoopAcc),
    (runModules gen syl i ms acc).modules.length +
      (runModules gen syl i ms acc).failed.length =
      acc.modules.length + acc.failed.length + ms.length
  | [], i, acc => by simp [runModules]
  | m :: rest, i, acc => by
    simp only [runModules]
    rw [runModules_length gen syl rest (i + 1) (stepModule gen syl i m acc)]
    rw [stepModule_modules, stepModule_failed]
    by_cases h : (gen m i syl (acc.summaries.map some)).success = true
    · simp [h]
      omega
    · simp [h]
      omega

theorem runModules_failed_grow (gen : Gen) (syl : Syllabus) :
    ∀ (ms : List PlanModule) (i : Nat) (acc : LoopAcc),
    ∃ t, (runModules gen syl i ms acc).failed = acc.failed ++ t
  | [], i, acc => ⟨[], by simp [runModules]⟩
  | m :: rest, i, acc => by
    simp only [runModules]
    obtain ⟨t, ht⟩ := runModules_failed_grow gen syl rest (i + 1) (stepModule gen syl i m acc)
    rw [ht, stepModule_failed]
    by_cases h : (gen m i syl (acc.summaries.map some)).success = true
    · exact ⟨t, by simp [h]⟩
    · exact ⟨failMsg i m (gen m i syl (acc.summaries.map some)).error :: t, by simp [h]⟩

theorem runModules_failed_shape (gen : Gen) (syl : Syllabus) :
    ∀ (ms : List PlanModule) (i : Nat) (acc : LoopAcc),
    ∀ s ∈ (runModules gen syl i ms acc).failed,
    s ∈ acc.failed ∨ ∃ j mj e, ms.get? j = some mj ∧ s = failMsg (i + j) mj e
  | [], i, acc => by
    intro s hs
    simp only [runModules] at hs
    exact Or.inl hs
  | m :: rest, i, acc => by
    intro s hs
    simp only [runModules] at hs
    rcases runModules_failed_shape gen syl rest (i + 1) (stepModule gen syl i m acc) s hs with
      hmem | ⟨j, mj, e, hg, he⟩
    · rw [stepModule_failed] at hmem
      by_cases h : (gen m i syl (acc.summaries.map some)).success = true
      · rw [if_pos h] at hmem
        exact Or.inl hmem
      · rw [if_neg h] at hmem
        rcases List.mem_append.mp hmem with h1 | h2
        · exact Or.inl h1
        · refine Or.inr ⟨0, m, (gen m i syl (acc.summaries.map some)).error, rfl, ?_⟩
          simpa using List.mem_singleton.mp h2
    · exact Or.inr ⟨j + 1, mj, e, by simpa using hg, by rw [he]; congr 1; omega⟩

theorem runModules_success_titles (gen : Gen) (syl : Syllabus) :
    ∀ (ms : List PlanModule) (i : Nat) (acc : LoopAcc),
    acc.failed = [] →
    (runModules gen syl i ms acc).failed = [] →
    (runModules gen syl i ms acc).modules.map (Option.map RealizedModule.title) =
      acc.modules.map (Option.map RealizedModule.title) ++
        ms.map (fun m => some m.title)
  | [], i, acc => by
    intro _ _
    simp [runModules]
  | m :: rest, i, acc => by
    intro hacc hres
    simp only [runModules] at hres ⊢
    by_cases h : (gen m i syl (acc.summaries.map some)).success = true
    · have hstep : (stepModule gen syl i m acc).failed = [] := by
        rw [stepModule_failed, if_pos h, hacc]
      rw [runModules_success_titles gen syl rest (i + 1) _ hstep hres]
      rw [stepModule_modules, if_pos h]
      simp [realize]
    · exfalso
      obtain ⟨t, ht⟩ := runModules_failed_grow gen syl rest (i + 1) (stepModule gen syl i m acc)
      rw [ht, stepModule_failed, if_neg h, hacc] at hres
      simp at hres

theorem findRealizedIdx_eq_none_iff {mods : List (Option RealizedModule)} {t : String} :
    findRealizedIdx mods t = none ↔ t ∉ realizedTitles mods := by
  rw [findRealizedIdx, firstIdx?_eq_none_iff]
  constructor
  · intro h hmem
    obtain ⟨o, ho, he⟩ := List.mem_filterMap.mp hmem
    cases o with
    | none => simp at he
    | some mm =>
      have hp := h (some mm) ho
      simp only [Option.map_some'] at he
      obtain rfl : mm.title = t := Option.some.inj he
      simp at hp
  · intro h o ho
    cases o with
    | none => rfl
    | some mm =>
      simp only [beq_eq_false_iff_ne, ne_eq]
      intro he
      exact h (List.mem_filterMap.mpr ⟨some mm, ho, by simp [he]⟩)

theorem stepResume_failed_grow (gen : Gen) (syl : Syllabus) (i : Nat) (m : PlanModule)
    (acc : ResumeAcc) :
    ∃ t, (stepResume gen syl i m acc).failed = acc.failed ++ t ∧
      ∀ s ∈ t, ∃ e, s = failMsg i m e := by
  by_cases h : (gen m i syl (acc.iterSums.take i)).success = true
  · cases hget : syl.modules.get? i with
    | none =>
      have hget2 : syl.modules[i]? = none := by
        rw [← List.get?_eq_getElem?]
        exact hget
      refine ⟨[failMsg i m (some "Cannot read properties of undefined (reading 'title')")],
        ?_, ?_⟩
      · simp [stepResume, h, hget2]
      · intro s hs
        exact ⟨_, (List.mem_singleton.mp hs)⟩
    | some sm =>
      have hget2 : syl.modules[i]? = some sm := by
        rw [← List.get?_eq_getElem?]
        exact hget
      refine ⟨[], by simp [stepResume, h, hget2], by simp⟩
  · refine ⟨[failMsg i m (gen m i syl (acc.iterSums.take i)).error], ?_, ?_⟩
    · simp [stepResume, h]
    · intro s hs
      exact ⟨_, (List.mem_singleton.mp hs)⟩

theorem stepResume_success_push (gen : Gen) (syl : Syllabus) (i : Nat) (m : PlanModule)
    (acc : ResumeAcc)
    (h : (gen m i syl (acc.iterSums.take i)).success = true)
    (hget : syl.modules.get? i = some m)
    (hfind : findRealizedIdx acc.modules m.title = none) :
    (stepResume gen syl i m acc).modules =
      acc.modules ++ [some (realize m (gen m i syl (acc.iterSums.take i)))] ∧
    (stepResume gen syl i m acc).failed = acc.failed := by
  have hget2 : syl.modules[i]? = some m := by
    rw [← List.get?_eq_getElem?]
    exact hget
  constructor
  · simp [stepResume, h, hget2, hfind]
  · simp [stepResume, h, hget2]

theorem resumeLoop_append (gen : Gen) (syl : Syllabus) :
    ∀ (l₁ l₂ : List (Nat × PlanModule)) (acc : ResumeAcc),
    resumeLoop gen syl (l₁ ++ l₂) acc =
      resumeLoop gen syl l₂ (resumeLoop gen syl l₁ acc)
  | [], l₂, acc => by simp [resumeLoop]
  | (i, m) :: rest, l₂, acc => by
    show resumeLoop gen syl (rest ++ l₂) (stepResume gen syl i m acc) =
      resumeLoop gen syl l₂ (resumeLoop gen syl rest (stepResume gen syl i m acc))
    exact resumeLoop_append gen syl rest l₂ (stepResume gen syl i m acc)

theorem resumeLoop_failed_grow (gen : Gen) (syl : Syllabus) :
    ∀ (missing : List (Nat × PlanModule)) (acc : ResumeAcc),
    ∃ t, (resumeLoop gen syl missing acc).failed = acc.failed ++ t
  | [], acc => ⟨[], by simp [resumeLoop]⟩
  | (i, m) :: rest, acc => by
    show ∃ t, (resumeLoop gen syl rest (stepResume gen syl i m acc)).failed = acc.failed ++ t
    obtain ⟨t₁, ht₁, _⟩ := stepResume_failed_grow gen syl i m acc
    obtain ⟨t₂, ht₂⟩ := resumeLoop_failed_grow gen syl rest (stepResume gen syl i m acc)
    exact ⟨t₁ ++ t₂, by rw [ht₂, ht₁, List.append_assoc]⟩

theorem resumeLoop_failed_shape (gen : Gen) (syl : Syllabus) :
    ∀ (missing : List (Nat × PlanModule)) (acc : ResumeAcc),
    ∀ s ∈ (resumeLoop gen syl missing acc).failed,
    s ∈ acc.failed ∨ ∃ p e, p ∈ missing ∧ s = failMsg p.1 p.2 e
  | [], acc => by
    intro s hs
    simp only [resumeLoop] at hs
    exact Or.inl hs
  | (i, m) :: rest, acc => by
    intro s hs
    simp only [resumeLoop] at hs
    rcases resumeLoop_failed_shape gen syl rest (stepResume gen syl i m acc) s hs with
      hmem | ⟨p, e, hp, he⟩
    · obtain ⟨t, ht, hshape⟩ := stepResume_failed_grow gen syl i m acc
      rw [ht] at hmem
      rcases List.mem_append.mp hmem with h1 | h2
      · exact Or.inl h1
      · obtain ⟨e, he⟩ := hshape s h2
        exact Or.inr ⟨(i, m), e, List.mem_cons_self _ _, he⟩
    · exact Or.inr ⟨p, e, List.mem_cons_of_mem _ hp, he⟩

theorem resumeLoop_success_titles (gen : Gen) (syl : Syllabus) :
    ∀ (missing : List (Nat × PlanModule)) (acc : ResumeAcc),
    acc.failed = [] →
    (resumeLoop gen syl missing acc).failed = [] →
    (∀ p ∈ missing, syl.modules.get? p.1 = some p.2) →
    ((missing.map (fun p => p.2.title)).Nodup) →
    (∀ p ∈ missing, p.2.title ∉ realizedTitles acc.modules) →
    (resumeLoop gen syl missing acc).modules.map (Option.map RealizedModule.title) =
      acc.modules.map (Option.map RealizedModule.title) ++
        missing.map (fun p => some p.2.title)
  | [], acc => by
    intro _ _ _ _ _
    simp [resumeLoop]
  | (i, m) :: rest, acc => by
    intro hacc hres hget hnd hnin
    simp only [resumeLoop] at hres ⊢
    by_cases h : (gen m i syl (acc.iterSums.take i)).success = true
    · have hgeti : syl.modules.get? i = some m := hget (i, m) (List.mem_cons_self _ _)
      have hfind : findRealizedIdx acc.modules m.title = none :=
        findRealizedIdx_eq_none_iff.mpr (hnin (i, m) (List.mem_cons_self _ _))
      obtain ⟨hmods, hfail⟩ := stepResume_success_push gen syl i m acc h hgeti hfind
      have hstepfail : (stepResume gen syl i m acc).failed = [] := by rw [hfail, hacc]
      have hndc := List.nodup_cons.mp (by simpa only [List.map_cons] using hnd)
      have hne : ∀ p ∈ rest, p.2.title ≠ m.title := by
        intro p hp he
        exact hndc.1 (he ▸ List.mem_map.mpr ⟨p, hp, rfl⟩)
      have hrest := resumeLoop_success_titles gen syl rest (stepResume gen syl i m acc)
        hstepfail hres
        (fun p hp => hget p (List.mem_cons_of_mem _ hp))
        hndc.2
        (fun p hp => by
          rw [hmods, realizedTitles_append, realizedTitles_some]
          simp only [List.mem_append, List.mem_singleton]
          rintro (hin | heq)
          · exact hnin p (List.mem_cons_of_mem _ hp) hin
          · simp only [realize] at heq
            exact hne p hp heq)
      rw [hrest, hmods]
      simp [realize]
    · exfalso
      obtain ⟨t₁, ht₁, _⟩ := stepResume_failed_grow gen syl i m acc
      obtain ⟨t₂, ht₂⟩ := resumeLoop_failed_grow gen syl rest (stepResume gen syl i m acc)
      rw [ht₂, ht₁, hacc] at hres
      have : t₁ ≠ [] := by
        intro hnil
        rw [hnil] at ht₁
        simp [stepResume, h, hacc] at ht₁
      simp at hres
      exact this hres.1

theorem map_sortKey_allSome (syl : Syllabus) {mods : List (Option RealizedModule)}
    (h : ∀ o ∈ mods, o.isSome) :
    mods.map (sortKey syl) = (realizedTitles mods).map (planKey syl) := by
  induction mods with
  | nil => rfl
  | cons o os ih =>
    obtain ⟨m, rfl⟩ := Option.isSome_iff_exists.mp (h o (List.mem_cons_self o os))
    simp only [List.map_cons]
    rw [ih (fun x hx => h x (List.mem_cons_of_mem _ hx))]
    rfl

theorem planKey_get (syl : Syllabus)
    (hn : (syl.modules.map PlanModule.title).Nodup)
    {i : Nat} {pm : PlanModule} (hget : syl.modules.get? i = some pm) :
    planKey syl pm.title = (i : Int) := by
  have := firstIdx?_map_nodup PlanModule.title hn hget
  rw [planKey, this]

theorem map_planKey_titles (syl : Syllabus)
    (hn : (syl.modules.map PlanModule.title).Nodup) :
    (syl.modules.map PlanModule.title).map (planKey syl) =
      (List.range syl.modules.length).map Int.ofNat := by
  apply List.ext_get
  · simp
  · intro k h1 h2
    have hk : k < syl.modules.length := by simpa using h1
    have hget : syl.modules.get? k = some (syl.modules.get ⟨k, hk⟩) := List.get?_eq_get hk
    have hpk := planKey_get syl hn hget
    simp only [List.get_eq_getElem, List.getElem_map, List.getElem_range]
    simpa using hpk

theorem sortByPlan_aligned (syl : Syllabus)
    (hn : (syl.modules.map PlanModule.title).Nodup)
    {mods : List (Option RealizedModule)}
    (hsome : ∀ o ∈ mods, o.isSome)
    (hperm : (realizedTitles mods).Perm (syl.modules.map PlanModule.title)) :
    titlesAligned (sortByPlan syl mods) syl := by
  have htot : ∀ a b : Option RealizedModule,
      (decide (sortKey syl a ≤ sortKey syl b) || decide (sortKey syl b ≤ sortKey syl a)) = true := by
    intro a b
    rcases le_total (sortKey syl a) (sortKey syl b) with h | h
    · simp [h]
    · simp [h]
  have htr : ∀ a b c : Option RealizedModule,
      decide (sortKey syl a ≤ sortKey syl b) = true →
      decide (sortKey syl b ≤ sortKey syl c) = true →
      decide (sortKey syl a ≤ sortKey syl c) = true := by
    intro a b c hab hbc
    simp only [decide_eq_true_eq] at hab hbc ⊢
    exact le_trans hab hbc
  have hsorted := pairwise_sortByLe
    (fun a b => decide (sortKey syl a ≤ sortKey syl b)) htot htr mods
  have hperm2 : (sortByPlan syl mods).Perm mods :=
    perm_sortByLe (fun a b => decide (sortKey syl a ≤ sortKey syl b)) mods
  have hkeysorted : ((sortByPlan syl mods).map (sortKey syl)).Pairwise (· ≤ ·) := by
    refine List.Pairwise.map _ ?_ hsorted
    intro a b hab
    simpa [decide_eq_true_eq] using hab
  have hkeyperm : ((sortByPlan syl mods).map (sortKey syl)).Perm
      ((List.range syl.modules.length).map Int.ofNat) := by
    have h1 := hperm2.map (sortKey syl)
    rw [map_sortKey_allSome syl hsome] at h1
    have h3 := hperm.map (planKey syl)
    rw [map_planKey_titles syl hn] at h3
    exact h1.trans h3
  have hrange : ((List.range syl.modules.length).map Int.ofNat).Pairwise (· ≤ ·) := by
    refine List.Pairwise.map _ ?_ (List.pairwise_lt_range syl.modules.length)
    intro a b hab
    exact Int.ofNat_le.mpr (le_of_lt hab)
  haveI : IsAntisymm Int (· ≤ ·) := ⟨fun a b h1 h2 => le_antisymm h1 h2⟩
  have hkeys : (sortByPlan syl mods).map (sortKey syl) =
      (List.range syl.modules.length).map Int.ofNat :=
    List.eq_of_perm_of_sorted hkeyperm hkeysorted hrange
  have hlen : (sortByPlan syl mods).length = syl.modules.length := by
    have := congrArg List.length hkeys
    simpa using this
  unfold titlesAligned
  apply List.ext
  intro k
  by_cases hk : k < syl.modules.length
  · have hks : k < (sortByPlan syl mods).length := by rw [hlen]; exact hk
    obtain ⟨e, he⟩ : ∃ e, (sortByPlan syl mods).get? k = some e := by
      rw [List.get?_eq_get hks]
      exact ⟨_, rfl⟩
    have h5 := congrArg (fun l => l.get? k) hkeys
    simp only [List.get?_map] at h5
    rw [he] at h5
    have hr : (List.range syl.modules.length).get? k = some k := by
      rw [List.get?_eq_get (by simpa using hk)]
      simp
    rw [hr] at h5
    simp only [Option.map_some'] at h5
    have hkey : sortKey syl e = Int.ofNat k := Option.some.inj h5
    rw [Int.ofNat_eq_natCast] at hkey
    cases e with
    | none =>
      exfalso
      simp only [sortKey] at hkey
      omega
    | some m =>
      simp only [sortKey] at hkey
      cases hfi : firstIdx? (fun pm => pm.title == m.title) syl.modules with
      | none =>
        exfalso
        simp only [planKey, hfi] at hkey
        omega
      | some j =>
        simp only [planKey, hfi] at hkey
        have hj : j = k := by exact_mod_cast hkey
        subst hj
        obtain ⟨pm, hpm, hpt⟩ := firstIdx?_eq_some_get? hfi
        have hti : pm.title = m.title := by simpa using hpt
        rw [List.get?_map, List.get?_map, he, hpm]
        simp [hti]
  · push_neg at hk
    rw [List.get?_map, List.get?_map, List.get?_len_le (by rw [hlen]; exact hk),
      List.get?_len_le hk]
    rfl

theorem sublist_eq_of_subset_rev {l₁ l₂ : List String} (hsub : l₁.Sublist l₂)
    (hn : l₂.Nodup) (hsup : l₂ ⊆ l₁) : l₁ = l₂ := by
  have hsp1 : l₂.Subperm l₁ := List.subperm_of_subset hn hsup
  have hsp2 : l₁.Subperm l₂ := ⟨l₁, List.Perm.refl _, hsub⟩
  exact hsub.eq_of_length (hsp2.antisymm hsp1).length_eq

theorem perm_titles_restore {tR sylT : List String} (hsub : tR.Sublist sylT)
    (hn : sylT.Nodup) :
    (tR ++ sylT.filter (fun t => !(tR.contains t))).Perm sylT := by
  have hn1 : tR.Nodup := hn.sublist hsub
  have hnf : (sylT.filter (fun t => !(tR.contains t))).Nodup := hn.filter _
  have hnodup : (tR ++ sylT.filter (fun t => !(tR.contains t))).Nodup := by
    rw [List.nodup_append]
    refine ⟨hn1, hnf, ?_⟩
    intro a ha hf
    have h2 := (List.mem_filter.mp hf).2
    rw [Bool.not_eq_true'] at h2
    rw [← contains_iff_mem (l := tR)] at ha
    rw [h2] at ha
    cases ha
  apply (List.perm_ext_iff_of_nodup hnodup hn).mpr
  intro a
  simp only [List.mem_append]
  constructor
  · rintro (h | h)
    · exact hsub.subset h
    · exact (List.mem_filter.mp h).1
  · intro ha
    by_cases hc : a ∈ tR
    · exact Or.inl hc
    · refine Or.inr (List.mem_filter.mpr ⟨ha, ?_⟩)
      rw [Bool.not_eq_true']
      rw [← contains_iff_mem (l := tR)] at hc
      exact Bool.eq_false_iff.mpr hc

theorem allSome_of_map_eq {mods : List (Option RealizedModule)} {L : List String}
    (h : mods.map (Option.map RealizedModule.title) = L.map some) :
    ∀ o ∈ mods, o.isSome := by
  intro o ho
  have hmem : Option.map RealizedModule.title o ∈ L.map some :=
    h ▸ List.mem_map_of_mem _ ho
  obtain ⟨t, _, ht⟩ := List.mem_map.mp hmem
  cases o with
  | none => simp at ht
  | some m => rfl

theorem missingModulesOf_eq_nil_iff {syl : Syllabus} {mods : List (Option RealizedModule)} :
    missingModulesOf syl mods = [] ↔
      ∀ m ∈ syl.modules, (realizedTitles mods).contains m.title = true :=
  missingAux_eq_nil_iff

theorem missingModulesOf_mem {syl : Syllabus} {mods : List (Option RealizedModule)}
    {p : Nat × PlanModule} (h : p ∈ missingModulesOf syl mods) :
    syl.modules.get? p.1 = some p.2 ∧ p.2.title ∉ realizedTitles mods := by
  obtain ⟨j, hj, hg, hf⟩ := missingAux_mem h
  constructor
  · rw [hj]
    simpa using hg
  · intro hmem
    rw [← contains_iff_mem (l := realizedTitles mods)] at hmem
    rw [hf] at hmem
    cases hmem

theorem missingModulesOf_map_title {syl : Syllabus} {mods : List (Option RealizedModule)} :
    (missingModulesOf syl mods).map (fun p => p.2.title) =
      (syl.modules.map PlanModule.title).filter
        (fun t => !((realizedTitles mods).contains t)) :=
  missingAux_map_title

theorem processCourseAsync_run (fr : PromptFilterResult) (sr : SyllabusGenerationResult)
    (gen : Gen) (c : CourseState) (syl : Syllabus)
    (hf : boolTruthy fr.isValid = true) (hs : sr.success = true)
    (hsy : sr.syllabus = some syl) :
    processCourseAsync fr sr gen c =
      finishForward
        { c with improvedPrompt := fr.improvedPrompt,
                 status := CourseStatus.generating_content,
                 syllabus := some syl }
        (runModules gen syl 0 syl.modules
          { modules := c.modules, iterSums := c.iterationSummaries,
            summaries := [], failed := [] }) := by
  unfold processCourseAsync
  rw [hf, hs, hsy]
  simp

theorem processCourseAsync_rejected (fr : PromptFilterResult)
    (sr : SyllabusGenerationResult) (gen : Gen) (c : CourseState)
    (hf : boolTruthy fr.isValid = false) :
    processCourseAsync fr sr gen c =
      { c with status := CourseStatus.error, errorMessage := fr.rejectionReason } := by
  unfold processCourseAsync
  rw [hf]
  simp

theorem finishForward_error (c : CourseState) (acc : LoopAcc)
    (h : acc.modules = []) :
    finishForward c acc =
      { c with modules := acc.modules, iterationSummaries := acc.iterSums,
               status := CourseStatus.error,
               errorMessage := some ("All modules failed to generate. Errors: " ++
                 String.intercalate "; " acc.failed) } := by
  unfold finishForward
  rw [h]
  simp

theorem finishForward_degraded (c : CourseState) (acc : LoopAcc)
    (h : acc.modules ≠ []) (hfail : acc.failed ≠ []) :
    finishForward c acc =
      { c with modules := acc.modules, iterationSummaries := acc.iterSums,
               status := CourseStatus.ready,
               errorMessage := some ("Completed with " ++ toString acc.failed.length ++
                 " failed modules: " ++ String.intercalate "; " acc.failed) } := by
  unfold finishForward
  rw [if_neg (by simpa [List.length_eq_zero] using h)]
  rw [if_pos (by simpa [List.length_pos] using List.length_pos.mpr hfail)]

theorem finishForward_clean (c : CourseState) (acc : LoopAcc)
    (h : acc.modules ≠ []) (hfail : acc.failed = []) :
    finishForward c acc =
      { c with modules := acc.modules, iterationSummaries := acc.iterSums,
               status := CourseStatus.ready } := by
  unfold finishForward
  rw [if_neg (by simpa [List.length_eq_zero] using h)]
  rw [if_neg (by simp [hfail])]

/-- Claim C5 counterexample: the Course persisted and returned by Create has
initial stored status `filtering_prompt`, not `draft`, refuting the claim as
stated. -/
theorem c5_counterexample :
    (createCourse exInput).status = CourseStatus.filtering_prompt ∧
    (createCourse exInput).status ≠ CourseStatus.draft := by
  constructor
  · rfl
  · decide

/-- Claim C5 (amended): Create persists a new Course whose initial stored
status is `filtering_prompt` before detaching the asynchronous pipeline, and
returns that Course immediately in its pre-generation state: no syllabus, no
modules, no summaries, no error, no improved prompt; the originating topic
and the defaulted provider are recorded. -/
theorem c5_create_initial_state (input : CreateCourseInput) :
    (createCourse input).status = CourseStatus.filtering_prompt ∧
    (createCourse input).syllabus = none ∧
    (createCourse input).modules = [] ∧
    (createCourse input).iterationSummaries = [] ∧
    (createCourse input).errorMessage = none ∧
    (createCourse input).improvedPrompt = none ∧
    (createCourse input).originalPrompt = input.topic ∧
    (createCourse input).provider = input.provider.getD AIProvider.deepseek :=
  ⟨rfl, rfl, rfl, rfl, rfl, rfl, rfl, rfl⟩

/-- Claim C10: on a stored course that has a syllabus, regenerateSection with
a module index addressing no syllabus module returns null and leaves the
persisted course state unchanged, for every generation oracle alike (the
function returns before any generation call is built). -/
theorem c10_regenerate_out_of_range (gen : Gen) (course : CourseState)
    (syl : Syllabus) (k : Nat) (ctx : String)
    (hs : course.syllabus = some syl) (hk : syl.modules.length ≤ k) :
    regenerateSection gen course k ctx = (course, none) := by
  have hget2 : syl.modules[k]? = none := by
    rw [← List.get?_eq_getElem?]
    exact List.get?_len_le hk
  simp [regenerateSection, hs, hget2]

/-- Claim C10 witness at a concrete course and index. -/
theorem c10_witness :
    regenerateSection genOk exCourseA 5 "extra context" = (exCourseA, none) :=
  c10_regenerate_out_of_range genOk exCourseA exSyl3 5 "extra context" rfl (by decide)

/-- Claim C8: regenerateSection targeting plan module k leaves every other
index of modules and iterationSummaries unchanged, never touches the stored
syllabus or the course status, always returns the persisted state to the
caller synchronously, and when the generation call fails it persists nothing:
the course state is exactly the prior one. -/
theorem c8_regenerate_frame (gen : Gen) (course : CourseState) (k : Nat)
    (ctx : String) (syl : Syllabus) (m : PlanModule)
    (hs : course.syllabus = some syl) (hm : syl.modules.get? k = some m) :
    (∀ j, j ≠ k →
      jsGet (regenerateSection gen course k ctx).1.modules j = jsGet course.modules j ∧
      jsGet (regenerateSection gen course k ctx).1.iterationSummaries j =
        jsGet course.iterationSummaries j) ∧
    (regenerateSection gen course k ctx).1.syllabus = course.syllabus ∧
    (regenerateSection gen course k ctx).1.status = course.status ∧
    (regenerateSection gen course k ctx).2 = some (regenerateSection gen course k ctx).1 ∧
    ((gen m k (ctxSyllabus syl ctx) (course.iterationSummaries.take k)).success = false →
      regenerateSection gen course k ctx = (course, some course)) := by
  have hm2 : syl.modules[k]? = some m := by
    rw [← List.get?_eq_getElem?]
    exact hm
  set r := gen m k (ctxSyllabus syl ctx) (course.iterationSummaries.take k) with hr
  by_cases hsucc : r.success = true
  · cases hsum : r.summary with
    | some s =>
      by_cases hse : s = ""
      · have hre : regenerateSection gen course k ctx =
            ({ course with modules := jsSet course.modules k (realize m r) },
             some { course with modules := jsSet course.modules k (realize m r) }) := by
          simp [regenerateSection, hs, hm2, ← hr, hsucc, hsum, hse]
        rw [hre]
        refine ⟨fun j hj => ⟨jsGet_jsSet_ne _ _ _ _ hj, rfl⟩, rfl, rfl, rfl, ?_⟩
        intro hfalse
        rw [hsucc] at hfalse
        cases hfalse
      · have hre : regenerateSection gen course k ctx =
            ({ course with
                modules := jsSet course.modules k (realize m r),
                iterationSummaries := jsSet course.iterationSummaries k s },
             some { course with
                modules := jsSet course.modules k (realize m r),
                iterationSummaries := jsSet course.iterationSummaries k s }) := by
          simp [regenerateSection, hs, hm2, ← hr, hsucc, hsum, hse]
        rw [hre]
        refine ⟨fun j hj => ⟨jsGet_jsSet_ne _ _ _ _ hj, jsGet_jsSet_ne _ _ _ _ hj⟩,
          rfl, rfl, rfl, ?_⟩
        intro hfalse
        rw [hsucc] at hfalse
        cases hfalse
    | none =>
      have hre : regenerateSection gen course k ctx =
          ({ course with modules := jsSet course.modules k (realize m r) },
           some { course with modules := jsSet course.modules k (realize m r) }) := by
        simp [regenerateSection, hs, hm2, ← hr, hsucc, hsum]
      rw [hre]
      refine ⟨fun j hj => ⟨jsGet_jsSet_ne _ _ _ _ hj, rfl⟩, rfl, rfl, rfl, ?_⟩
      intro hfalse
      rw [hsucc] at hfalse
      cases hfalse
  · have hre : regenerateSection gen course k ctx = (course, some course) := by
      simp [regenerateSection, hs, hm2, ← hr, hsucc]
    rw [hre]
    exact ⟨fun j hj => ⟨rfl, rfl⟩, rfl, rfl, rfl, fun _ => rfl⟩

/-- Claim C8 witness at a concrete course, module and oracle. -/
theorem c8_witness :
    (∀ j, j ≠ 0 →
      jsGet (regenerateSection genOk exCourseA 0 "uc").1.modules j =
        jsGet exCourseA.modules j ∧
      jsGet (regenerateSection genOk exCourseA 0 "uc").1.iterationSummaries j =
        jsGet exCourseA.iterationSummaries j) ∧
    (regenerateSection genOk exCourseA 0 "uc").1.syllabus = exCourseA.syllabus ∧
    (regenerateSection genOk exCourseA 0 "uc").1.status = exCourseA.status ∧
    (regenerateSection genOk exCourseA 0 "uc").2 =
      some (regenerateSection genOk exCourseA 0 "uc").1 ∧
    ((genOk (exPlan "A") 0 (ctxSyllabus exSyl3 "uc")
        (exCourseA.iterationSummaries.take 0)).success = false →
      regenerateSection genOk exCourseA 0 "uc" = (exCourseA, some exCourseA)) :=
  c8_regenerate_frame genOk exCourseA 0 "uc" exSyl3 (exPlan "A") rfl rfl

/-- Claim C6: when every syllabus module title is already realized, Resume
sets the status to ready, clears the error, leaves modules and
iterationSummaries untouched (the persisted and returned state is the input
course with only those two fields changed), and doing it again yields the
same state: Resume is idempotent on a course with no missing modules. -/
theorem c6_resume_idempotent (gen gen2 : Gen) (course : CourseState) (syl : Syllabus)
    (hs : course.syllabus = some syl)
    (hall : ∀ m ∈ syl.modules, (realizedTitles course.modules).contains m.title = true) :
    resumeCourse gen course =
      ({ course with status := CourseStatus.ready, errorMessage := none },
       some { course with status := CourseStatus.ready, errorMessage := none }) ∧
    resumeCourse gen2 { course with status := CourseStatus.ready, errorMessage := none } =
      ({ course with status := CourseStatus.ready, errorMessage := none },
       some { course with status := CourseStatus.ready, errorMessage := none }) := by
  have hmiss : missingModulesOf syl course.modules = [] :=
    missingModulesOf_eq_nil_iff.mpr hall
  constructor
  · simp [resumeCourse, hs, hmiss]
  · simp [resumeCourse, hs, hmiss]

/-- Claim C6 witness at a concrete fully realized course. -/
theorem c6_witness :
    resumeCourse genOk exCourseFull1 =
      ({ exCourseFull1 with status := CourseStatus.ready, errorMessage := none },
       some { exCourseFull1 with status := CourseStatus.ready, errorMessage := none }) ∧
    resumeCourse genOk { exCourseFull1 with status := CourseStatus.ready, errorMessage := none } =
      ({ exCourseFull1 with status := CourseStatus.ready, errorMessage := none },
       some { exCourseFull1 with status := CourseStatus.ready, errorMessage := none }) :=
  c6_resume_idempotent genOk genOk exCourseFull1 exSyl1 rfl (by decide)

/-- Claim C4 counterexample: a malformed qualifier response yields exactly the
same rejection-shaped result as a well-formed rejection carrying the same
reason, and the pipeline terminates identically on both (status error,
errorMessage the reason); a response missing the validity field likewise
flows through the rejection path, with an absent reason. No distinct generic
qualifier-failure outcome exists. -/
theorem c4_counterexample :
    filterAndImprovePrompt (some "not json") (fun _ => none) =
      { isValid := some false, improvedPrompt := none,
        rejectionReason := some "Failed to parse AI response" } ∧
    filterAndImprovePrompt (some "not json") (fun _ => none) =
      filterAndImprovePrompt (some "rejection")
        (fun _ => some { isValid := some false, improvedPrompt := none, rejectionReason := some "Failed to parse AI response" }) ∧
    processCourseAsync (filterAndImprovePrompt (some "not json") (fun _ => none))
        (exSylRes exSyl3) genOk (createCourse exInput) =
      { createCourse exInput with
        status := CourseStatus.error,
        errorMessage := some "Failed to parse AI response" } ∧
    filterAndImprovePrompt (some "no validity field")
        (fun _ => some { isValid := none, improvedPrompt := none, rejectionReason := none }) =
      { isValid := none, improvedPrompt := none, rejectionReason := none } ∧
    processCourseAsync
        { isValid := none, improvedPrompt := none, rejectionReason := none }
        (exSylRes exSyl3) genOk (createCourse exInput) =
      { createCourse exInput with
        status := CourseStatus.error,
        errorMessage := none } := by
  refine ⟨by decide, by decide, ?_, by decide, ?_⟩
  · have h := processCourseAsync_rejected
      (filterAndImprovePrompt (some "not json") (fun _ => none))
      (exSylRes exSyl3) genOk (createCourse exInput) (by decide)
    rw [h]
    decide
  · have h := processCourseAsync_rejected
      { isValid := none, improvedPrompt := none, rejectionReason := none }
      (exSylRes exSyl3) genOk (createCourse exInput) (by decide)
    rw [h]

/-- Claim C4 (amended): the qualifier returns a rejection-shaped result with
isValid false and a fixed reason both for missing content and for malformed
JSON; a well-formed response is passed through verbatim, so a missing
validity field yields an absent isValid; and the orchestrator terminates the
course as a rejection (status error, the result rejectionReason as
errorMessage) whenever isValid is falsy. There is no separate hard-failure
channel for malformed or incomplete qualifier responses. -/
theorem c4_qualifier_behavior :
    (∀ (s : String) (parse : String → Option ParsedFilter), s ≠ "" → parse s = none →
      filterAndImprovePrompt (some s) parse =
        { isValid := some false, improvedPrompt := none,
          rejectionReason := some "Failed to parse AI response" }) ∧
    (∀ (s : String) (parse : String → Option ParsedFilter) (r : ParsedFilter),
      s ≠ "" → parse s = some r →
      filterAndImprovePrompt (some s) parse =
        { isValid := r.isValid, improvedPrompt := r.improvedPrompt,
          rejectionReason := r.rejectionReason }) ∧
    (∀ parse : String → Option ParsedFilter,
      filterAndImprovePrompt none parse =
        { isValid := some false, improvedPrompt := none,
          rejectionReason := some "No response from AI" }) ∧
    (∀ (fr : PromptFilterResult) (sr : SyllabusGenerationResult) (gen : Gen)
      (c : CourseState), boolTruthy fr.isValid = false →
      processCourseAsync fr sr gen c =
        { c with status := CourseStatus.error, errorMessage := fr.rejectionReason }) := by
  refine ⟨?_, ?_, ?_, ?_⟩
  · intro s parse hs hp
    simp [filterAndImprovePrompt, hs, hp]
  · intro s parse r hs hp
    simp [filterAndImprovePrompt, hs, hp]
  · intro parse
    rfl
  · intro fr sr gen c hf
    exact processCourseAsync_rejected fr sr gen c hf

/-- Claim C4 witness: the amended behavior applied at concrete inputs. -/
theorem c4_witness :
    filterAndImprovePrompt (some "x") (fun _ => none) =
      { isValid := some false, improvedPrompt := none,
        rejectionReason := some "Failed to parse AI response" } ∧
    processCourseAsync { isValid := some false, improvedPrompt := none, rejectionReason := some "topic rejected" }
      (exSylRes exSyl3) genOk (createCourse exInput) =
      { createCourse exInput with
        status := CourseStatus.error,
        errorMessage := some "topic rejected" } :=
  ⟨c4_qualifier_behavior.1 "x" (fun _ => none) (by decide) rfl,
   c4_qualifier_behavior.2.2.2
     { isValid := some false, improvedPrompt := none, rejectionReason := some "topic rejected" }
     (exSylRes exSyl3) genOk (createCourse exInput) (by decide)⟩

/-- Claim C7 is contradicted by the forward pass: on a three-module plan whose
middle module fails while modules 0 and 2 succeed (with summaries S0 and S2),
the pass pushes summaries compactly, so the summary of plan module 2 is
stored at index 1 and index 2 is empty, breaking the claimed index alignment
of iterationSummaries with syllabus.modules; Resume and Regenerate instead
write summaries at the plan index, which such compacted state then
misfeeds. -/
theorem c7_forward_pass_misaligns_summaries :
    (processCourseAsync exFilterOk (exSylRes exSyl3) (genFailIdx [1])
      (createCourse exInput)).iterationSummaries = [some "S0", some "S2"] ∧
    jsGet (processCourseAsync exFilterOk (exSylRes exSyl3) (genFailIdx [1])
      (createCourse exInput)).iterationSummaries 1 = some "S2" ∧
    jsGet (processCourseAsync exFilterOk (exSylRes exSyl3) (genFailIdx [1])
      (createCourse exInput)).iterationSummaries 2 = none ∧
    exSyl3.modules.length = 3 := by
  refine ⟨by decide, by decide, by decide, by decide⟩

/-- Claim C1: in the Create forward pass (prompt accepted, syllabus produced,
fresh course), the loop processes every plan module regardless of failures
(splitting the module list splits the run; realized plus failed counts add up
to the plan length), every collected failure string has the shape
`Module i (title): reason` for a plan module, and the terminal mapping is:
no realized modules means status error with all reasons joined into the
error message; some realized and some failed means ready with the failures
listed; no failures means ready with no error message. -/
theorem c1_forward_failure_aggregation (gen : Gen) (fr : PromptFilterResult)
    (sr : SyllabusGenerationResult) (syl : Syllabus) (c : CourseState)
    (acc : LoopAcc) (final : CourseState)
    (hf : boolTruthy fr.isValid = true) (hs : sr.success = true)
    (hsy : sr.syllabus = some syl) (hm : c.modules = [])
    (hi : c.iterationSummaries = []) (he : c.errorMessage = none)
    (hacc : acc = runModules gen syl 0 syl.modules { modules := [], iterSums := [], summaries := [], failed := [] })
    (hfinal : final = processCourseAsync fr sr gen c) :
    (acc.modules.length + acc.failed.length = syl.modules.length) ∧
    (∀ s ∈ acc.failed, ∃ j mj e, syl.modules.get? j = some mj ∧ s = failMsg j mj e) ∧
    (∀ (ms₁ ms₂ : List PlanModule) (i : Nat) (a : LoopAcc),
      runModules gen syl i (ms₁ ++ ms₂) a =
        runModules gen syl (i + ms₁.length) ms₂ (runModules gen syl i ms₁ a)) ∧
    (acc.modules = [] →
      final.status = CourseStatus.error ∧
      final.errorMessage = some ("All modules failed to generate. Errors: " ++
        String.intercalate "; " acc.failed)) ∧
    (acc.modules ≠ [] → acc.failed ≠ [] →
      final.status = CourseStatus.ready ∧
      final.errorMessage = some ("Completed with " ++ toString acc.failed.length ++
        " failed modules: " ++ String.intercalate "; " acc.failed)) ∧
    (acc.modules ≠ [] → acc.failed = [] →
      final.status = CourseStatus.ready ∧ final.errorMessage = none) := by
  subst hacc
  subst hfinal
  have hinit : ({ modules := c.modules, iterSums := c.iterationSummaries, summaries := [], failed := [] } : LoopAcc) = { modules := [], iterSums := [], summaries := [], failed := [] } := by
    rw [hm, hi]
  have hrun := processCourseAsync_run fr sr gen c syl hf hs hsy
  rw [hinit] at hrun
  refine ⟨?_, ?_, ?_, ?_, ?_, ?_⟩
  · have h := runModules_length gen syl syl.modules 0
      { modules := [], iterSums := [], summaries := [], failed := [] }
    simpa using h
  · intro s hsmem
    rcases runModules_failed_shape gen syl syl.modules 0 { modules := [], iterSums := [], summaries := [], failed := [] } s hsmem with h0 | ⟨j, mj, e, hg, he2⟩
    · exact absurd h0 (List.not_mem_nil s)
    · exact ⟨j, mj, e, hg, by simpa using he2⟩
  · exact runModules_append gen syl
  · intro hempty
    rw [hrun, finishForward_error _ _ hempty]
    exact ⟨rfl, rfl⟩
  · intro hne hfail
    rw [hrun, finishForward_degraded _ _ hne hfail]
    exact ⟨rfl, rfl⟩
  · intro hne hfail
    rw [hrun, finishForward_clean _ _ hne hfail]
    exact ⟨rfl, he⟩

/-- Claim C1 witness: the aggregation behavior at a concrete three-module
plan whose middle module fails. -/
theorem c1_witness :
    ((runModules (genFailTitles ["B"]) exSyl3 0 exSyl3.modules { modules := [], iterSums := [], summaries := [], failed := [] }).modules.length +
      (runModules (genFailTitles ["B"]) exSyl3 0 exSyl3.modules { modules := [], iterSums := [], summaries := [], failed := [] }).failed.length =
      exSyl3.modules.length) ∧
    (∀ s ∈ (runModules (genFailTitles ["B"]) exSyl3 0 exSyl3.modules { modules := [], iterSums := [], summaries := [], failed := [] }).failed,
      ∃ j mj e, exSyl3.modules.get? j = some mj ∧ s = failMsg j mj e) ∧
    (∀ (ms₁ ms₂ : List PlanModule) (i : Nat) (a : LoopAcc),
      runModules (genFailTitles ["B"]) exSyl3 i (ms₁ ++ ms₂) a =
        runModules (genFailTitles ["B"]) exSyl3 (i + ms₁.length) ms₂
          (runModules (genFailTitles ["B"]) exSyl3 i ms₁ a)) ∧
    ((runModules (genFailTitles ["B"]) exSyl3 0 exSyl3.modules { modules := [], iterSums := [], summaries := [], failed := [] }).modules = [] →
      (processCourseAsync exFilterOk (exSylRes exSyl3) (genFailTitles ["B"])
        (createCourse exInput)).status = CourseStatus.error ∧
      (processCourseAsync exFilterOk (exSylRes exSyl3) (genFailTitles ["B"])
        (createCourse exInput)).errorMessage =
        some ("All modules failed to generate. Errors: " ++
          String.intercalate "; " (runModules (genFailTitles ["B"]) exSyl3 0 exSyl3.modules { modules := [], iterSums := [], summaries := [], failed := [] }).failed)) ∧
    ((runModules (genFailTitles ["B"]) exSyl3 0 exSyl3.modules { modules := [], iterSums := [], summaries := [], failed := [] }).modules ≠ [] →
      (runModules (genFailTitles ["B"]) exSyl3 0 exSyl3.modules { modules := [], iterSums := [], summaries := [], failed := [] }).failed ≠ [] →
      (processCourseAsync exFilterOk (exSylRes exSyl3) (genFailTitles ["B"])
        (createCourse exInput)).status = CourseStatus.ready ∧
      (processCourseAsync exFilterOk (exSylRes exSyl3) (genFailTitles ["B"])
        (createCourse exInput)).errorMessage =
        some ("Completed with " ++
          toString (runModules (genFailTitles ["B"]) exSyl3 0 exSyl3.modules { modules := [], iterSums := [], summaries := [], failed := [] }).failed.length ++
          " failed modules: " ++
          String.intercalate "; " (runModules (genFailTitles ["B"]) exSyl3 0 exSyl3.modules { modules := [], iterSums := [], summaries := [], failed := [] }).failed)) ∧
    ((runModules (genFailTitles ["B"]) exSyl3 0 exSyl3.modules { modules := [], iterSums := [], summaries := [], failed := [] }).modules ≠ [] →
      (runModules (genFailTitles ["B"]) exSyl3 0 exSyl3.modules { modules := [], iterSums := [], summaries := [], failed := [] }).failed = [] →
      (processCourseAsync exFilterOk (exSylRes exSyl3) (genFailTitles ["B"])
        (createCourse exInput)).status = CourseStatus.ready ∧
      (processCourseAsync exFilterOk (exSylRes exSyl3) (genFailTitles ["B"])
        (createCourse exInput)).errorMessage = none) :=
  c1_forward_failure_aggregation (genFailTitles ["B"]) exFilterOk (exSylRes exSyl3)
    exSyl3 (createCourse exInput) _ _ (by decide) (by decide) rfl rfl rfl rfl rfl rfl

theorem sortByPlan_length (syl : Syllabus) (xs : List (Option RealizedModule)) :
    (sortByPlan syl xs).length = xs.length :=
  (perm_sortByLe _ xs).length_eq

theorem resumeCourseAsync_run (gen : Gen) (missing : List (Nat × PlanModule))
    (c : CourseState) (syl : Syllabus) (hs : c.syllabus = some syl) :
    resumeCourseAsync gen missing c =
      finishResume c syl (resumeLoop gen syl missing
        { modules := c.modules, iterSums := c.iterationSummaries, failed := [] }) := by
  unfold resumeCourseAsync
  rw [hs]

theorem finishResume_full (c : CourseState) (syl : Syllabus) (acc : ResumeAcc)
    (h : (sortByPlan syl acc.modules).length = syl.modules.length) :
    finishResume c syl acc =
      { c with modules := sortByPlan syl acc.modules, iterationSummaries := acc.iterSums,
               status := CourseStatus.ready,
               errorMessage := if acc.failed.length > 0 then
                 some ("Completed with some issues: " ++ String.intercalate "; " acc.failed)
               else none } := by
  unfold finishResume
  rw [if_pos (by simpa using h)]

theorem finishResume_failed (c : CourseState) (syl : Syllabus) (acc : ResumeAcc)
    (h : (sortByPlan syl acc.modules).length ≠ syl.modules.length)
    (hf : acc.failed ≠ []) :
    finishResume c syl acc =
      { c with modules := sortByPlan syl acc.modules, iterationSummaries := acc.iterSums,
               status := CourseStatus.error,
               errorMessage := some ("Resume failed for some modules: " ++
                 String.intercalate "; " acc.failed) } := by
  unfold finishResume
  rw [if_neg (by simpa using h)]
  rw [if_pos (by simpa [List.length_pos] using List.length_pos.mpr hf)]

theorem finishResume_quiet (c : CourseState) (syl : Syllabus) (acc : ResumeAcc)
    (h : (sortByPlan syl acc.modules).length ≠ syl.modules.length)
    (hf : acc.failed = []) :
    finishResume c syl acc =
      { c with modules := sortByPlan syl acc.modules,
               iterationSummaries := acc.iterSums } := by
  unfold finishResume
  rw [if_neg (by simpa using h)]
  rw [if_neg (by simp [hf])]

/-- Claim C3 counterexample: resuming a course holding plan A,B,C with only A
realized, where B regenerates successfully and C fails, terminates with
status error even though a module succeeded during Resume; the claim's
forward-pass mapping (some successes and some failures imply ready) does not
hold for Resume. -/
theorem c3_counterexample :
    (resumeCourse (genFailTitles ["C"]) exCourseA).1.status = CourseStatus.error ∧
    (resumeCourse (genFailTitles ["C"]) exCourseA).1.modules.length = 2 ∧
    (resumeCourse (genFailTitles ["C"]) exCourseA).1.errorMessage =
      some "Resume failed for some modules: Module 3 (C): boom" := by
  refine ⟨by decide, by decide, by decide⟩

/-- Claim C3 (amended): Resume collects per-module failures as
`Module i (title): reason` strings and a failure never stops the loop
(processing a concatenation equals processing the parts in order), but its
terminal mapping differs from the forward pass: the course is ready exactly
when every plan module is realized (modules length equals plan length), with
the failures listed in the error message when any occurred; when modules
remain missing and failures occurred the status is error with the failures
listed; with modules missing and no failures the status and error fields are
left as they were. -/
theorem c3_resume_failure_mapping (gen : Gen) (missing : List (Nat × PlanModule))
    (c : CourseState) (syl : Syllabus) (acc : ResumeAcc) (final : CourseState)
    (hs : c.syllabus = some syl)
    (hacc : acc = resumeLoop gen syl missing { modules := c.modules, iterSums := c.iterationSummaries, failed := [] })
    (hfinal : final = resumeCourseAsync gen missing c) :
    (∀ s ∈ acc.failed, ∃ p e, p ∈ missing ∧ s = failMsg p.1 p.2 e) ∧
    (∀ (l₁ l₂ : List (Nat × PlanModule)) (a : ResumeAcc),
      resumeLoop gen syl (l₁ ++ l₂) a = resumeLoop gen syl l₂ (resumeLoop gen syl l₁ a)) ∧
    (final.modules.length = syl.modules.length →
      final.status = CourseStatus.ready ∧
      final.errorMessage = (if acc.failed.length > 0 then
        some ("Completed with some issues: " ++ String.intercalate "; " acc.failed)
      else none)) ∧
    (final.modules.length ≠ syl.modules.length → acc.failed ≠ [] →
      final.status = CourseStatus.error ∧
      final.errorMessage = some ("Resume failed for some modules: " ++
        String.intercalate "; " acc.failed)) ∧
    (final.modules.length ≠ syl.modules.length → acc.failed = [] →
      final.status = c.status ∧ final.errorMessage = c.errorMessage) := by
  subst hacc
  subst hfinal
  have hrun := resumeCourseAsync_run gen missing c syl hs
  refine ⟨?_, ?_, ?_, ?_, ?_⟩
  · intro s hsmem
    rcases resumeLoop_failed_shape gen syl missing
      { modules := c.modules, iterSums := c.iterationSummaries, failed := [] } s hsmem with
      h0 | h1
    · exact absurd h0 (List.not_mem_nil s)
    · exact h1
  · exact resumeLoop_append gen syl
  · intro hlen
    by_cases hb : (sortByPlan syl (resumeLoop gen syl missing
        { modules := c.modules, iterSums := c.iterationSummaries, failed := [] }).modules).length =
        syl.modules.length
    · rw [hrun, finishResume_full _ _ _ hb]
      exact ⟨rfl, rfl⟩
    · exfalso
      apply hb
      by_cases hf : (resumeLoop gen syl missing
          { modules := c.modules, iterSums := c.iterationSummaries, failed := [] }).failed = []
      · rw [hrun, finishResume_quiet _ _ _ hb hf] at hlen
        exact hlen
      · rw [hrun, finishResume_failed _ _ _ hb hf] at hlen
        exact hlen
  · intro hlen hf
    by_cases hb : (sortByPlan syl (resumeLoop gen syl missing
        { modules := c.modules, iterSums := c.iterationSummaries, failed := [] }).modules).length =
        syl.modules.length
    · exfalso
      apply hlen
      rw [hrun, finishResume_full _ _ _ hb]
      exact hb
    · rw [hrun, finishResume_failed _ _ _ hb hf]
      exact ⟨rfl, rfl⟩
  · intro hlen hf
    by_cases hb : (sortByPlan syl (resumeLoop gen syl missing
        { modules := c.modules, iterSums := c.iterationSummaries, failed := [] }).modules).length =
        syl.modules.length
    · exfalso
      apply hlen
      rw [hrun, finishResume_full _ _ _ hb]
      exact hb
    · rw [hrun, finishResume_quiet _ _ _ hb hf]
      exact ⟨rfl, rfl⟩

/-- Claim C3 witness: the amended mapping at a concrete resume run. -/
theorem c3_witness :
    (∀ s ∈ (resumeLoop genOk exSyl3 [(1, exPlan "B"), (2, exPlan "C")]
        { modules := exCourseA.modules, iterSums := exCourseA.iterationSummaries, failed := [] }).failed,
      ∃ p e, p ∈ [(1, exPlan "B"), (2, exPlan "C")] ∧ s = failMsg p.1 p.2 e) ∧
    (∀ (l₁ l₂ : List (Nat × PlanModule)) (a : ResumeAcc),
      resumeLoop genOk exSyl3 (l₁ ++ l₂) a =
        resumeLoop genOk exSyl3 l₂ (resumeLoop genOk exSyl3 l₁ a)) ∧
    ((resumeCourseAsync genOk [(1, exPlan "B"), (2, exPlan "C")] exCourseA).modules.length =
        exSyl3.modules.length →
      (resumeCourseAsync genOk [(1, exPlan "B"), (2, exPlan "C")] exCourseA).status =
        CourseStatus.ready ∧
      (resumeCourseAsync genOk [(1, exPlan "B"), (2, exPlan "C")] exCourseA).errorMessage =
        (if (resumeLoop genOk exSyl3 [(1, exPlan "B"), (2, exPlan "C")]
            { modules := exCourseA.modules, iterSums := exCourseA.iterationSummaries, failed := [] }).failed.length > 0 then
          some ("Completed with some issues: " ++ String.intercalate "; "
            (resumeLoop genOk exSyl3 [(1, exPlan "B"), (2, exPlan "C")]
              { modules := exCourseA.modules, iterSums := exCourseA.iterationSummaries, failed := [] }).failed)
        else none)) ∧
    ((resumeCourseAsync genOk [(1, exPlan "B"), (2, exPlan "C")] exCourseA).modules.length ≠
        exSyl3.modules.length →
      (resumeLoop genOk exSyl3 [(1, exPlan "B"), (2, exPlan "C")]
        { modules := exCourseA.modules, iterSums := exCourseA.iterationSummaries, failed := [] }).failed ≠ [] →
      (resumeCourseAsync genOk [(1, exPlan "B"), (2, exPlan "C")] exCourseA).status =
        CourseStatus.error ∧
      (resumeCourseAsync genOk [(1, exPlan "B"), (2, exPlan "C")] exCourseA).errorMessage =
        some ("Resume failed for some modules: " ++ String.intercalate "; "
          (resumeLoop genOk exSyl3 [(1, exPlan "B"), (2, exPlan "C")]
            { modules := exCourseA.modules, iterSums := exCourseA.iterationSummaries, failed := [] }).failed)) ∧
    ((resumeCourseAsync genOk [(1, exPlan "B"), (2, exPlan "C")] exCourseA).modules.length ≠
        exSyl3.modules.length →
      (resumeLoop genOk exSyl3 [(1, exPlan "B"), (2, exPlan "C")]
        { modules := exCourseA.modules, iterSums := exCourseA.iterationSummaries, failed := [] }).failed = [] →
      (resumeCourseAsync genOk [(1, exPlan "B"), (2, exPlan "C")] exCourseA).status =
        exCourseA.status ∧
      (resumeCourseAsync genOk [(1, exPlan "B"), (2, exPlan "C")] exCourseA).errorMessage =
        exCourseA.errorMessage) :=
  c3_resume_failure_mapping genOk [(1, exPlan "B"), (2, exPlan "C")] exCourseA exSyl3
    _ _ rfl rfl rfl

/-- Claim C2 counterexample: with a plan of two modules both titled A, the
forward pass realizes the first and fails the second (degraded ready), and a
subsequent Resume finds no missing title and terminates the course ready with
no error message while only one of the two plan modules is realized, so the
claimed length and title alignment fails on a course that terminates ready
with no error via Resume. -/
theorem c2_counterexample :
    (resumeCourse genOk (processCourseAsync exFilterOk (exSylRes exSylDup)
      (genFailIdx [1]) (createCourse exInput))).1.status = CourseStatus.ready ∧
    (resumeCourse genOk (processCourseAsync exFilterOk (exSylRes exSylDup)
      (genFailIdx [1]) (createCourse exInput))).1.errorMessage = none ∧
    (resumeCourse genOk (processCourseAsync exFilterOk (exSylRes exSylDup)
      (genFailIdx [1]) (createCourse exInput))).1.syllabus = some exSylDup ∧
    (resumeCourse genOk (processCourseAsync exFilterOk (exSylRes exSylDup)
      (genFailIdx [1]) (createCourse exInput))).1.modules.length = 1 ∧
    exSylDup.modules.length = 2 ∧
    ¬ titlesAligned (resumeCourse genOk (processCourseAsync exFilterOk (exSylRes exSylDup)
      (genFailIdx [1]) (createCourse exInput))).1.modules exSylDup := by
  refine ⟨by decide, by decide, by decide, by decide, by decide, ?_⟩
  simp only [titlesAligned]
  decide

/-- Claim C2 (amended): a course that terminates ready with no error message
realizes every plan module with titles aligned index by index, both for the
Create forward pass on a fresh course and for Resume — the latter under the
reachable-state invariants the design maintains and the spec itself assumes:
plan module titles pairwise distinct (§9's duplicate-title caveat, forced by
the counterexample) and the realized modules a hole-free in-order selection
of the plan modules (titles a sublist of the plan titles). -/
theorem c2_ready_alignment :
    (∀ (gen : Gen) (fr : PromptFilterResult) (sr : SyllabusGenerationResult)
      (syl : Syllabus) (c : CourseState),
      boolTruthy fr.isValid = true → sr.success = true → sr.syllabus = some syl →
      c.modules = [] →
      (processCourseAsync fr sr gen c).status = CourseStatus.ready →
      (processCourseAsync fr sr gen c).errorMessage = none →
      titlesAligned (processCourseAsync fr sr gen c).modules syl) ∧
    (∀ (gen : Gen) (c : CourseState) (syl : Syllabus),
      c.syllabus = some syl →
      (syl.modules.map PlanModule.title).Nodup →
      (realizedTitles c.modules).Sublist (syl.modules.map PlanModule.title) →
      (∀ o ∈ c.modules, o.isSome) →
      (resumeCourse gen c).1.status = CourseStatus.ready →
      (resumeCourse gen c).1.errorMessage = none →
      titlesAligned (resumeCourse gen c).1.modules syl) := by
  constructor
  · intro gen fr sr syl c hf hs hsy hm hready hnone
    have hrun := processCourseAsync_run fr sr gen c syl hf hs hsy
    by_cases hm0 : (runModules gen syl 0 syl.modules { modules := c.modules, iterSums := c.iterationSummaries, summaries := [], failed := [] }).modules = []
    · exfalso
      rw [hrun, finishForward_error _ _ hm0] at hready
      simp at hready
    · by_cases hfail : (runModules gen syl 0 syl.modules { modules := c.modules, iterSums := c.iterationSummaries, summaries := [], failed := [] }).failed = []
      · rw [hrun, finishForward_clean _ _ hm0 hfail]
        have htit := runModules_success_titles gen syl syl.modules 0
          { modules := c.modules, iterSums := c.iterationSummaries, summaries := [], failed := [] }
          rfl hfail
        unfold titlesAligned
        rw [htit]
        rw [hm]
        simp
      · exfalso
        rw [hrun, finishForward_degraded _ _ hm0 hfail] at hnone
        simp at hnone
  · intro gen c syl hs hn hsub hsome hready hnone
    by_cases hmiss : missingModulesOf syl c.modules = []
    · have hre : (resumeCourse gen c).1 =
          { c with status := CourseStatus.ready, errorMessage := none } := by
        simp [resumeCourse, hs, hmiss]
      rw [hre]
      have hsup : (syl.modules.map PlanModule.title) ⊆ realizedTitles c.modules := by
        intro t ht
        obtain ⟨m, hmem, rfl⟩ := List.mem_map.mp ht
        exact contains_iff_mem.mp (missingModulesOf_eq_nil_iff.mp hmiss m hmem)
      have heq := sublist_eq_of_subset_rev hsub hn hsup
      unfold titlesAligned
      rw [allSome_map_titles hsome, heq, List.map_map]
      rfl
    · have hmiss2 : (missingModulesOf syl c.modules).isEmpty = false := by
        simpa [List.isEmpty_iff] using hmiss
      have hre : (resumeCourse gen c).1 =
          resumeCourseAsync gen (missingModulesOf syl c.modules)
            { c with status := CourseStatus.generating_content, errorMessage := none } := by
        simp [resumeCourse, hs, hmiss2]
      have hsp : ({ c with status := CourseStatus.generating_content, errorMessage := none } : CourseState).syllabus = some syl := hs
      have hrun := resumeCourseAsync_run gen (missingModulesOf syl c.modules)
        { c with status := CourseStatus.generating_content, errorMessage := none } syl hsp
      rw [hrun] at hre
      rw [hre] at hready hnone ⊢
      by_cases hb : (sortByPlan syl ((resumeLoop gen syl (missingModulesOf syl c.modules) { modules := c.modules, iterSums := c.iterationSummaries, failed := [] }).modules)).length = syl.modules.length
      · rw [finishResume_full _ _ _ hb] at hnone ⊢
        have hfail : (resumeLoop gen syl (missingModulesOf syl c.modules) { modules := c.modules, iterSums := c.iterationSummaries, failed := [] }).failed = [] := by
          by_cases hf : (resumeLoop gen syl (missingModulesOf syl c.modules) { modules := c.modules, iterSums := c.iterationSummaries, failed := [] }).failed = []
          · exact hf
          · exfalso
            rw [if_pos (by simpa [List.length_pos] using List.length_pos.mpr hf)] at hnone
            simp at hnone
        have hget : ∀ p ∈ missingModulesOf syl c.modules, syl.modules.get? p.1 = some p.2 :=
          fun p hp => (missingModulesOf_mem hp).1
        have hnin : ∀ p ∈ missingModulesOf syl c.modules,
            p.2.title ∉ realizedTitles c.modules :=
          fun p hp => (missingModulesOf_mem hp).2
        have hndm : ((missingModulesOf syl c.modules).map (fun p => p.2.title)).Nodup := by
          rw [missingModulesOf_map_title]
          exact hn.filter _
        have hmap := resumeLoop_success_titles gen syl (missingModulesOf syl c.modules)
          { modules := c.modules, iterSums := c.iterationSummaries, failed := [] }
          rfl hfail hget hndm hnin
        have hmap2 : (resumeLoop gen syl (missingModulesOf syl c.modules) { modules := c.modules, iterSums := c.iterationSummaries, failed := [] }).modules.map (Option.map RealizedModule.title) =
            ((realizedTitles c.modules) ++
              ((syl.modules.map PlanModule.title).filter
                (fun t => !((realizedTitles c.modules).contains t)))).map some := by
          rw [hmap, allSome_map_titles hsome, List.map_append, ← missingModulesOf_map_title]
          congr 1
          rw [List.map_map]
          rfl
        have hsomeAcc := allSome_of_map_eq hmap2
        have htR := map_eq_map_some_titles hmap2
        have hperm : (realizedTitles (resumeLoop gen syl (missingModulesOf syl c.modules) { modules := c.modules, iterSums := c.iterationSummaries, failed := [] }).modules).Perm
            (syl.modules.map PlanModule.title) := by
          rw [htR]
          exact perm_titles_restore hsub hn
        exact sortByPlan_aligned syl hn hsomeAcc hperm
      · exfalso
        by_cases hf : (resumeLoop gen syl (missingModulesOf syl c.modules) { modules := c.modules, iterSums := c.iterationSummaries, failed := [] }).failed = []
        · rw [finishResume_quiet _ _ _ hb hf] at hready
          simp at hready
        · rw [finishResume_failed _ _ _ hb hf] at hready
          simp at hready

/-- Claim C2 witness: alignment at a concrete clean forward pass and at a
concrete Resume with nothing missing. -/
theorem c2_witness :
    titlesAligned (processCourseAsync exFilterOk (exSylRes exSyl3) genOk
      (createCourse exInput)).modules exSyl3 ∧
    titlesAligned (resumeCourse genOk exCourseFull1).1.modules exSyl1 :=
  ⟨c2_ready_alignment.1 genOk exFilterOk (exSylRes exSyl3) exSyl3 (createCourse exInput)
    (by decide) (by decide) rfl rfl (by decide) (by decide),
   c2_ready_alignment.2 genOk exCourseFull1 exSyl1 rfl (by decide)
    (List.Sublist.refl _) (by decide) (by decide) (by decide)⟩

/-- Claim C9 counterexample: a syllabus JSON whose single module carries an
empty lessons array satisfies the schema, and generateSyllabus accepts it and
returns it as the syllabus, so a module with an empty lessons list does not
fail validation and can be stored. -/
theorem c9_counterexample :
    validSyllabusJson exJsonEmptyLessons = true ∧
    generateSyllabusJson (some "raw output") (fun _ => some exJsonEmptyLessons) =
      { success := true, syllabus := some exJsonEmptyLessons, error := none } ∧
    validModuleJson (Json.jobj [("title", Json.jstr "M1"), ("lessons", Json.jarr [])]) = true ∧
    getField [("title", Json.jstr "M1"), ("lessons", Json.jarr [])] "lessons" =
      some (Json.jarr []) := by
  refine ⟨rfl, rfl, rfl, rfl⟩

/-- Claim C9 (amended): syllabus schema validation requires every module of a
valid syllabus object to carry a lessons field holding an array whose items
each validate as lessons (title and content_outline required), but it places
no lower bound on the array length: an empty lessons array is accepted. -/
theorem c9_schema_lessons (fields mfields : List (String × Json)) (marr : List Json)
    (hv : validSyllabusJson (Json.jobj fields) = true)
    (hm : getField fields "modules" = some (Json.jarr marr))
    (hmem : Json.jobj mfields ∈ marr) :
    lessonsFieldOk (getField mfields "lessons") = true := by
  simp only [validSyllabusJson, Bool.and_eq_true] at hv
  have hmods := hv.2
  rw [fieldOk, hm] at hmods
  have hvm : validModuleJson (Json.jobj mfields) = true :=
    List.all_eq_true.mp hmods (Json.jobj mfields) hmem
  simp only [validModuleJson, Bool.and_eq_true] at hvm
  have hreq : fieldReq mfields "lessons" = true := hvm.1.1.1.1.2
  have hok := hvm.2
  rw [fieldReq] at hreq
  obtain ⟨v, hv2⟩ := Option.isSome_iff_exists.mp hreq
  rw [fieldOk, hv2] at hok
  rw [hv2]
  cases v with
  | jarr larr =>
    simpa [lessonsFieldOk] using hok
  | jnull => cases hok
  | jbool b => cases hok
  | jnum n => cases hok
  | jstr s2 => cases hok
  | jobj f2 => cases hok

/-- Claim C9 witness: the amended schema property applied to the concrete
module with an empty lessons array inside the valid syllabus fixture. -/
theorem c9_witness :
    lessonsFieldOk (getField [("title", Json.jstr "M1"), ("lessons", Json.jarr [])] "lessons") = true :=
  c9_schema_lessons
    [ ("topic", Json.jstr "t"), ("title", Json.jstr "T"),
      ("keywords", Json.jstr "k"), ("description", Json.jstr "d"),
      ("total_duration_minutes", Json.jnum 60),
      ("modules", Json.jarr [Json.jobj [("title", Json.jstr "M1"), ("lessons", Json.jarr [])]]) ]
    [("title", Json.jstr "M1"), ("lessons", Json.jarr [])]
    [Json.jobj [("title", Json.jstr "M1"), ("lessons", Json.jarr [])]]
    rfl rfl (List.mem_singleton.mpr rfl)
